import Mathlib

/-!
# Verification of the WeatherPostcast merge-and-retention engine

A shallow embedding of the forecast merge, retention/archival split and
archive-merge logic of the WeatherPostcast repository
(`src/merger.py`, `src/file_io.py`, `src/collector.py`,
`collect_forecasts.py`), together with proofs of the specified
properties.

Modelling conventions:
* Python dates are modelled as proleptic ordinal day numbers (`Nat`).
  The outer forecast mapping in the source is keyed by the ISO date
  string `date.isoformat()`; since `isoformat` is injective and
  lexicographic order on ISO-8601 date strings agrees with date order,
  the string key is modelled by the date's ordinal itself.
* Python `dict`s are modelled as association lists together with the
  operations the source uses: lookup (`dictGet`), assignment
  (`dictInsert`, which updates in place when the key is present and
  appends otherwise, exactly like `d[k] = v`), and
  `dict(sorted(d.items()))` (`sortByKey`).
* `days_ahead` keys are `Int` (the source computes
  `(forecast_date - collection_date).days`, which may be negative).
* Optional scalar fields are `Option Int` / `Option String`; Python
  truthiness of an optional string (`None` and `""` are falsy) is
  `optStrTruthy`.
-/

namespace WeatherPostcast

/-! ## Python dict model -/

/-- Lookup in an association list, i.e. `d.get(k)` / `d[k]` on a Python
dict (keys of a Python dict are unique, so first match is the match). -/
def dictGet {α β : Type} [DecidableEq α] : List (α × β) → α → Option β
  | [], _ => none
  | p :: rest, k => if p.1 = k then some p.2 else dictGet rest k

/-- Assignment `d[k] = v` on a Python dict: replaces the value in place
when the key is present, appends a new binding otherwise. -/
def dictInsert {α β : Type} [DecidableEq α] (k : α) (v : β) : List (α × β) → List (α × β)
  | [] => [(k, v)]
  | p :: rest => if p.1 = k then (k, v) :: rest else p :: dictInsert k v rest

/-- The key list of an association list. -/
def dictKeys {α β : Type} (l : List (α × β)) : List α := l.map Prod.fst

/-- A Python dict never has two bindings for the same key. -/
def nodupKeys {α β : Type} (l : List (α × β)) : Prop := (dictKeys l).Nodup

instance {α β : Type} [DecidableEq α] (l : List (α × β)) : Decidable (nodupKeys l) := by
  unfold nodupKeys dictKeys
  infer_instance

/-- Key order on bindings (non-strict). -/
def keyle {α β : Type} [LinearOrder α] (p q : α × β) : Prop := p.1 ≤ q.1

/-- Key order on bindings (strict). -/
def keylt {α β : Type} [LinearOrder α] (p q : α × β) : Prop := p.1 < q.1

instance {α β : Type} [LinearOrder α] : IsTotal (α × β) keyle :=
  ⟨fun p q => le_total p.1 q.1⟩

instance {α β : Type} [LinearOrder α] : IsTrans (α × β) keyle :=
  ⟨fun _ _ _ h1 h2 => le_trans h1 h2⟩

instance {α β : Type} [LinearOrder α] : DecidableRel (keyle (α := α) (β := β)) :=
  fun p q => inferInstanceAs (Decidable (p.1 ≤ q.1))

instance {α β : Type} [LinearOrder α] : DecidableRel (keylt (α := α) (β := β)) :=
  fun p q => inferInstanceAs (Decidable (p.1 < q.1))

/-- `dict(sorted(d.items()))`: sort the bindings by key.  Insertion sort
is stable, matching Python's `sorted`. -/
def sortByKey {α β : Type} [LinearOrder α] (l : List (α × β)) : List (α × β) :=
  l.insertionSort keyle

/-! ## Data model

The dataclasses `PredictionEntry`, `ForecastRecord` and `LocationData`
are referenced by `src/merger.py` and `src/file_io.py` from
`src.models`; the copy of `models.py` in the repository holds a
different (superseded) variant, so the three structures are modelled
from the spec (§3 DATA MODEL) and from their construction sites in
`merger.py`, which exhibit every field. -/

/-- Modelled from the spec: one forecast-issuer's prediction for one
target date captured at one collection time (§3 PredictionEntry); field
names as in the constructor calls in `merger.py`. -/
structure PredictionEntry where
  icon_code : Option Int
  temp_min : Option Int
  temp_max : Option Int
  precipitation_prob : Option String
  precis : Option String
  forecast : Option String
deriving DecidableEq, Repr

/-- Modelled from the spec: all predictions ever collected for a single
target date, keyed by days-ahead (§3 ForecastRecord). -/
structure ForecastRecord where
  forecast_date : Nat
  predictions : List (Int × PredictionEntry)
deriving DecidableEq, Repr

/-- Modelled from the spec: one location's complete stored history (§3
LocationData). The `forecasts` mapping is keyed by target date. -/
structure LocationData where
  product_id : String
  city_name : String
  state : String
  timezone : String
  forecasts : List (Nat × ForecastRecord)
deriving DecidableEq, Repr

/-- `ForecastDay` from `src/xml_parser.py`: a single day's forecast
extracted from the XML. -/
structure ForecastDay where
  forecast_date : Nat
  icon_code : Option Int
  temp_min : Option Int
  temp_max : Option Int
  precipitation_prob : Option String
  precis : Option String
  forecast : Option String
deriving DecidableEq, Repr

/-- `ParsedForecast` from `src/xml_parser.py` (issue time is irrelevant
to the merge and omitted). -/
structure ParsedForecast where
  product_id : String
  city_name : String
  timezone : String
  forecasts : List ForecastDay
deriving DecidableEq, Repr

/-- Python truthiness of an optional string: `None` and `""` are falsy. -/
def optStrTruthy : Option String → Bool
  | none => false
  | some s => !s.isEmpty

/-! ## Merge engine (`src/merger.py`) -/

/-- `_merge_prediction_entry` (merger.py lines 22–48): merge a new
prediction entry with an existing one, preserving existing values where
the new entry's field is absent.  Presence is `is not None` for
`icon_code`/`temp_min`/`temp_max` and truthiness for the string
fields. -/
def mergePredictionEntry (existing : Option PredictionEntry) (new : PredictionEntry) :
    PredictionEntry :=
  match existing with
  | none => new
  | some e =>
    { icon_code := if new.icon_code.isSome then new.icon_code else e.icon_code
      temp_min := if new.temp_min.isSome then new.temp_min else e.temp_min
      temp_max := if new.temp_max.isSome then new.temp_max else e.temp_max
      precipitation_prob :=
        if optStrTruthy new.precipitation_prob then new.precipitation_prob
        else e.precipitation_prob
      precis := if optStrTruthy new.precis then new.precis else e.precis
      forecast := if optStrTruthy new.forecast then new.forecast else e.forecast }

/-- The `PredictionEntry(...)` built from a `ForecastDay` in the body of
`merge_forecast` (merger.py lines 92–99). -/
def predictionOfDay (d : ForecastDay) : PredictionEntry :=
  { icon_code := d.icon_code
    temp_min := d.temp_min
    temp_max := d.temp_max
    precipitation_prob := d.precipitation_prob
    precis := d.precis
    forecast := d.forecast }

/-- One iteration of the `for forecast_day in new_forecast.forecasts`
loop of `merge_forecast` (merger.py lines 85–120): get or create the
record for the day's target date, merge the day's prediction at
`days_ahead`, re-sort the record's predictions, and store the record
back. -/
def mergeForecastStep (collection_date : Nat) (st : LocationData) (day : ForecastDay) :
    LocationData :=
  let days_ahead : Int := (day.forecast_date : Int) - (collection_date : Int)
  let new_prediction := predictionOfDay day
  let record :=
    match dictGet st.forecasts day.forecast_date with
    | some r => r
    | none => { forecast_date := day.forecast_date, predictions := [] }
  let existing_prediction := dictGet record.predictions days_ahead
  let record' :=
    { record with
        predictions :=
          sortByKey (dictInsert days_ahead
            (mergePredictionEntry existing_prediction new_prediction) record.predictions) }
  { st with forecasts := dictInsert day.forecast_date record' st.forecasts }

/-- The record transformation a single loop iteration of
`merge_forecast` applies to the record of the day's target date
(creating it when absent): merge the day's prediction at `days_ahead`
and re-sort the predictions. -/
def touchRecord (collection_date : Nat) (day : ForecastDay) (r : ForecastRecord) :
    ForecastRecord :=
  { r with
      predictions :=
        sortByKey (dictInsert ((day.forecast_date : Int) - (collection_date : Int))
          (mergePredictionEntry
            (dictGet r.predictions ((day.forecast_date : Int) - (collection_date : Int)))
            (predictionOfDay day))
          r.predictions) }

/-- Sequential application of `touchRecord` for a run of loop
iterations hitting one record (an absent record starts from an empty
record at the day's date). -/
def touchChain (collection_date : Nat) : List ForecastDay → Option ForecastRecord →
    Option ForecastRecord
  | [], x => x
  | d :: rest, x =>
    touchChain collection_date rest
      (some (touchRecord collection_date d
        (x.getD { forecast_date := d.forecast_date, predictions := [] })))

/-- Folding a run of per-day prediction entries into an optional
existing entry via `_merge_prediction_entry`. -/
def peFold (x : Option PredictionEntry) (ns : List PredictionEntry) : Option PredictionEntry :=
  ns.foldl (fun acc n => some (mergePredictionEntry acc n)) x

/-- The per-field override step of `_merge_prediction_entry`: take the
new value when present, keep the accumulator otherwise. -/
def ovStep {γ : Type} (present : γ → Bool) (acc new : γ) : γ :=
  if present new then new else acc

/-- `merge_forecast` (merger.py lines 51–130). -/
def mergeForecast (existing : Option LocationData) (new_forecast : ParsedForecast)
    (collection_date : Nat) (state : String) : LocationData :=
  let base :=
    match existing with
    | some e => e
    | none =>
      { product_id := new_forecast.product_id
        city_name := new_forecast.city_name
        state := state
        timezone := new_forecast.timezone
        forecasts := [] }
  let folded := new_forecast.forecasts.foldl (mergeForecastStep collection_date) base
  { folded with forecasts := sortByKey folded.forecasts }

/-- `archive_old_records` (merger.py lines 133–186): partition the
forecasts into current (target date ≥ reference date) and archived
(target date < reference date); the archived half is `none` when
empty. -/
def archiveOldRecords (data : LocationData) (reference_date : Nat) :
    LocationData × Option LocationData :=
  let current_forecasts :=
    data.forecasts.filter (fun p => reference_date ≤ p.2.forecast_date)
  let archived_forecasts :=
    data.forecasts.filter (fun p => p.2.forecast_date < reference_date)
  let current := { data with forecasts := current_forecasts }
  let archived :=
    if archived_forecasts.isEmpty then none
    else some
      { product_id := data.product_id
        city_name := data.city_name
        state := data.state
        timezone := data.timezone
        forecasts := archived_forecasts }
  (current, archived)

/-- The forecasts of an optional archived half (`[]` when absent);
used to state conservation of the split. -/
def archForecasts : Option LocationData → List (Nat × ForecastRecord)
  | none => []
  | some a => a.forecasts

/-! ## Archive merger (`src/file_io.py`) -/

/-- One iteration of the outer loop of `merge_archive_data` (file_io.py
lines 101–110): a date already present has its predictions extended
days-ahead-wise (new data wins) and re-sorted; a new date is inserted
whole. -/
def mergeArchiveStep (acc : List (Nat × ForecastRecord)) (kv : Nat × ForecastRecord) :
    List (Nat × ForecastRecord) :=
  match dictGet acc kv.1 with
  | some existing_record =>
    let preds :=
      kv.2.predictions.foldl (fun ps p => dictInsert p.1 p.2 ps) existing_record.predictions
    dictInsert kv.1 { existing_record with predictions := sortByKey preds } acc
  | none => acc ++ [kv]

/-- The merged record built by `merge_archive_data` when a date occurs
in both archives: the new record's predictions are assigned
days-ahead-wise over the existing record's, then re-sorted. -/
def mergedArchiveRecord (rE rN : ForecastRecord) : ForecastRecord :=
  { rE with
      predictions :=
        sortByKey (rN.predictions.foldl (fun ps p => dictInsert p.1 p.2 ps) rE.predictions) }

/-- `merge_archive_data` (file_io.py lines 83–115). -/
def mergeArchiveData (existing_archive : Option LocationData) (new_archive : LocationData) :
    LocationData :=
  match existing_archive with
  | none => new_archive
  | some ea =>
    let merged := new_archive.forecasts.foldl mergeArchiveStep ea.forecasts
    { ea with forecasts := sortByKey merged }

/-! ## Orchestrator (`src/collector.py`) and CLI (`collect_forecasts.py`)

The external collaborators (FTP fetch, XML parse, file reads and
writes) are modelled by their observable outcomes for one location:
`fetch_forecast_xml` and `parse_forecast_xml` return `None` on failure
(they catch their own exceptions), file reads return `None` on any
failure, and each write either succeeds or raises an exception whose
message is a string. -/

/-- `LocationConfig` from `src/config.py`. -/
structure LocationConfig where
  product_id : String
  city_name : String
  state : String
deriving DecidableEq, Repr

/-- The outcomes of the external collaborators for one location's
processing (fetch result, parse result, existing current data, write
outcomes). -/
structure LocEnv where
  fetched : Option String
  parsed : Option ParsedForecast
  existingData : Option LocationData
  writeCurrent : Except String Unit
  writeArchive : Except String Unit
deriving Repr

/-- `CollectionResult` from `src/collector.py`. -/
structure CollectionResult where
  total : Nat := 0
  successes : Nat := 0
  failures : Nat := 0
  errors : List String := []
deriving DecidableEq, Repr

/-- `collect_single_location` (collector.py lines 38–104): returns the
error message on failure, `none` on success.  A fetch failure, parse
failure or current-file write failure produces an error; an
archive-file write failure is only logged (the `except` around step 7
swallows it), so it does not affect the returned value. -/
def collectSingleLocation (location : LocationConfig) (env : LocEnv)
    (collection_date reference_date : Nat) : Option String :=
  match env.fetched with
  | none =>
    some ("Failed to fetch XML for " ++ location.city_name ++ " (" ++ location.product_id ++ ")")
  | some _ =>
    match env.parsed with
    | none =>
      some ("Failed to parse XML for " ++ location.city_name ++ " (" ++ location.product_id ++ ")")
    | some parsed_forecast =>
      let merged_data :=
        mergeForecast env.existingData parsed_forecast collection_date location.state
      let _split := archiveOldRecords merged_data reference_date
      match env.writeCurrent with
      | Except.error e =>
        some ("Failed to write file for " ++ location.city_name ++ " (" ++ location.product_id
          ++ "): " ++ e)
      | Except.ok _ =>
        -- step 7 writes `_split.2` when present; a failure there is
        -- logged as a warning and deliberately ignored, so the
        -- function returns `None` (success) whatever `env.writeArchive` is
        none

/-- The per-location loop of `collect_forecasts` (collector.py lines
174–187): every location is processed in order; a success increments
`successes`, a failure increments `failures` and appends the error
message.  Nothing aborts the iteration. -/
def collectLoop (locs : List (LocationConfig × LocEnv))
    (collection_date reference_date : Nat) (acc : CollectionResult) : CollectionResult :=
  match locs with
  | [] => acc
  | (location, env) :: rest =>
    let acc' :=
      match collectSingleLocation location env collection_date reference_date with
      | none => { acc with successes := acc.successes + 1 }
      | some e => { acc with failures := acc.failures + 1, errors := acc.errors ++ [e] }
    collectLoop rest collection_date reference_date acc'

/-- `collect_forecasts` (collector.py lines 107–203), after a
successful configuration load: sets `total` and runs the per-location
loop. -/
def collectForecasts (locs : List (LocationConfig × LocEnv))
    (collection_date reference_date : Nat) : CollectionResult :=
  collectLoop locs collection_date reference_date { total := locs.length }

/-- The exit-code mapping of `main` (collect_forecasts.py lines
114–134). -/
def mainExitCode (result : CollectionResult) : Nat :=
  if result.total = 0 then 2
  else if result.failures = result.total then 2
  else if 0 < result.failures then 1
  else 0

/-! ## Stated invariants and spec-side descriptions -/

/-- The sort invariant of §3/§8: outer date keys strictly ascending and
every record's days-ahead keys strictly ascending. -/
def sortedLD (d : LocationData) : Prop :=
  List.Sorted keylt d.forecasts ∧ ∀ p ∈ d.forecasts, List.Sorted keylt p.2.predictions

/-- The Python-dict well-formedness of a `LocationData`: no duplicate
date keys and, within each record, no duplicate days-ahead keys (a
Python dict cannot hold two bindings of one key). -/
def nodupLD (d : LocationData) : Prop :=
  nodupKeys d.forecasts ∧ ∀ p ∈ d.forecasts, nodupKeys p.2.predictions

/-- Spec description of the first-collection scenario (§8): one record
per parsed day, each holding exactly one prediction keyed by the
integer day difference between its target date and the collection
date. -/
def specFirstCollection (collection_date : Nat) (ds : List ForecastDay) :
    List (Nat × ForecastRecord) :=
  ds.map (fun d =>
    (d.forecast_date,
      { forecast_date := d.forecast_date
        predictions :=
          [((d.forecast_date : Int) - (collection_date : Int), predictionOfDay d)] }))

instance (d : LocationData) : Decidable (sortedLD d) := by
  unfold sortedLD
  infer_instance

instance (d : LocationData) : Decidable (nodupLD d) := by
  unfold nodupLD nodupKeys dictKeys
  infer_instance

/-! ## Association-list lemmas -/

section DictLemmas

variable {α β : Type} [DecidableEq α]

theorem dictGet_dictInsert (k k' : α) (v : β) (l : List (α × β)) :
    dictGet (dictInsert k v l) k' = if k' = k then some v else dictGet l k' := by
  induction l with
  | nil =>
    simp only [dictInsert, dictGet]
    by_cases h : k' = k
    · rw [if_pos h.symm, if_pos h]
    · rw [if_neg (fun hh => h hh.symm), if_neg h]
  | cons p rest ih =>
    by_cases h1 : p.1 = k
    · simp only [dictInsert, if_pos h1, dictGet]
      by_cases h2 : k' = k
      · rw [if_pos h2.symm, if_pos h2]
      · have hpk : ¬p.1 = k' := fun hh => h2 (h1.symm.trans hh).symm
        rw [if_neg (fun hh => h2 hh.symm), if_neg h2, if_neg hpk]
    · simp only [dictInsert, if_neg h1, dictGet, ih]
      by_cases h3 : p.1 = k'
      · by_cases h2 : k' = k
        · exact absurd (h3.trans h2) h1
        · rw [if_pos h3, if_neg h2, if_pos h3]
      · by_cases h2 : k' = k
        · rw [if_neg h3, if_pos h2, if_pos h2]
        · rw [if_neg h3, if_neg h2, if_neg h2, if_neg h3]

theorem dictInsert_of_not_mem {k : α} (v : β) {l : List (α × β)} (h : k ∉ dictKeys l) :
    dictInsert k v l = l ++ [(k, v)] := by
  induction l with
  | nil => rfl
  | cons p rest ih =>
    simp only [dictKeys, List.map_cons, List.mem_cons, not_or] at h
    have hne : ¬p.1 = k := fun hh => h.1 hh.symm
    simp only [dictInsert, if_neg hne, List.cons_append, List.cons.injEq, true_and]
    exact ih (by simpa [dictKeys] using h.2)

theorem dictKeys_dictInsert_of_mem {k : α} (v : β) {l : List (α × β)} (h : k ∈ dictKeys l) :
    dictKeys (dictInsert k v l) = dictKeys l := by
  induction l with
  | nil => simp [dictKeys] at h
  | cons p rest ih =>
    by_cases h1 : p.1 = k
    · simp [dictInsert, dictKeys, h1]
    · simp only [dictKeys, List.map_cons, List.mem_cons] at h
      rcases h with h | h
      · exact absurd h.symm h1
      · simp only [dictInsert, if_neg h1, dictKeys, List.map_cons, List.cons.injEq, true_and]
        exact ih (by simpa [dictKeys] using h)

theorem mem_dictKeys_dictInsert (k k' : α) (v : β) (l : List (α × β)) :
    k' ∈ dictKeys (dictInsert k v l) ↔ k' ∈ dictKeys l ∨ k' = k := by
  by_cases h : k ∈ dictKeys l
  · rw [dictKeys_dictInsert_of_mem v h]
    constructor
    · exact Or.inl
    · rintro (hh | rfl)
      · exact hh
      · exact h
  · rw [dictInsert_of_not_mem v h]
    simp [dictKeys]

theorem nodupKeys_dictInsert (k : α) (v : β) {l : List (α × β)} (h : nodupKeys l) :
    nodupKeys (dictInsert k v l) := by
  by_cases hm : k ∈ dictKeys l
  · show (dictKeys (dictInsert k v l)).Nodup
    rw [dictKeys_dictInsert_of_mem v hm]
    exact h
  · show (dictKeys (dictInsert k v l)).Nodup
    rw [dictInsert_of_not_mem v hm]
    simp only [dictKeys, List.map_append, List.map_cons, List.map_nil]
    exact List.Nodup.append h (List.nodup_singleton k) (by simpa [dictKeys] using hm)

theorem dictGet_eq_none_iff {l : List (α × β)} {k : α} :
    dictGet l k = none ↔ k ∉ dictKeys l := by
  induction l with
  | nil => simp [dictGet, dictKeys]
  | cons p rest ih =>
    by_cases h : p.1 = k
    · simp [dictGet, dictKeys, h]
    · simp only [dictGet, if_neg h, dictKeys, List.map_cons, List.mem_cons, not_or, ih]
      constructor
      · intro hh
        exact ⟨fun hk => h hk.symm, by simpa [dictKeys] using hh⟩
      · intro hh
        simpa [dictKeys] using hh.2

theorem dictGet_eq_none_of_lt {t : List (α × β)} {k : α} [LinearOrder α]
    (h : ∀ r ∈ t, k < r.1) : dictGet t k = none := by
  rw [dictGet_eq_none_iff]
  intro hm
  simp only [dictKeys, List.mem_map] at hm
  rcases hm with ⟨r, hr, hr1⟩
  exact absurd (hr1 ▸ h r hr) (lt_irrefl k)

theorem mem_of_dictGet_eq_some {l : List (α × β)} {k : α} {v : β}
    (h : dictGet l k = some v) : (k, v) ∈ l := by
  induction l with
  | nil => simp [dictGet] at h
  | cons p rest ih =>
    by_cases h1 : p.1 = k
    · simp only [dictGet, if_pos h1, Option.some.injEq] at h
      subst h
      have : p = (k, p.2) := by
        rw [← h1]
      rw [← this]
      exact List.mem_cons_self p rest
    · simp only [dictGet, if_neg h1] at h
      exact List.mem_cons_of_mem p (ih h)

theorem dictGet_eq_some_of_mem {l : List (α × β)} {k : α} {v : β}
    (hn : nodupKeys l) (hm : (k, v) ∈ l) : dictGet l k = some v := by
  induction l with
  | nil => simp at hm
  | cons p rest ih =>
    simp only [nodupKeys, dictKeys, List.map_cons, List.nodup_cons] at hn
    rcases List.mem_cons.1 hm with h | h
    · rw [← h]
      simp [dictGet]
    · have hk : k ∈ dictKeys rest := by
        simp only [dictKeys, List.mem_map]
        exact ⟨(k, v), h, rfl⟩
      have hp1 : ¬p.1 = k := by
        intro hh
        exact hn.1 (by simpa [dictKeys, hh] using hk)
      simp only [dictGet, if_neg hp1]
      exact ih hn.2 h

theorem dictGet_eq_of_perm {l1 l2 : List (α × β)} (hp : l1.Perm l2)
    (h1 : nodupKeys l1) (k : α) : dictGet l1 k = dictGet l2 k := by
  cases h2 : dictGet l2 k with
  | none =>
    rw [dictGet_eq_none_iff] at h2 ⊢
    intro hm
    apply h2
    simp only [dictKeys] at hm ⊢
    exact (hp.map Prod.fst).mem_iff.1 hm
  | some v =>
    exact dictGet_eq_some_of_mem h1 (hp.mem_iff.2 (mem_of_dictGet_eq_some h2))

end DictLemmas

section SortLemmas

variable {α β : Type} [LinearOrder α]

theorem sortByKey_perm (l : List (α × β)) : (sortByKey l).Perm l :=
  List.perm_insertionSort keyle l

theorem sorted_keyle_sortByKey (l : List (α × β)) : List.Sorted keyle (sortByKey l) :=
  List.sorted_insertionSort keyle l

theorem nodupKeys_sortByKey {l : List (α × β)} (h : nodupKeys l) : nodupKeys (sortByKey l) := by
  simp only [nodupKeys, dictKeys] at h ⊢
  exact (((sortByKey_perm l).map Prod.fst).nodup_iff).2 h

theorem sorted_keylt_of_keyle {l : List (α × β)} (hs : List.Sorted keyle l)
    (hn : nodupKeys l) : List.Sorted keylt l := by
  induction l with
  | nil => exact List.sorted_nil
  | cons p t ih =>
    rw [List.sorted_cons] at hs ⊢
    simp only [nodupKeys, dictKeys, List.map_cons, List.nodup_cons] at hn
    refine ⟨fun b hb => ?_, ih hs.2 hn.2⟩
    have hle : p.1 ≤ b.1 := hs.1 b hb
    have hne : p.1 ≠ b.1 := fun hh => hn.1 (hh ▸ List.mem_map.2 ⟨b, hb, rfl⟩)
    exact lt_of_le_of_ne hle hne

theorem sorted_keylt_sortByKey {l : List (α × β)} (h : nodupKeys l) :
    List.Sorted keylt (sortByKey l) :=
  sorted_keylt_of_keyle (sorted_keyle_sortByKey l) (nodupKeys_sortByKey h)

theorem nodupKeys_of_sorted_keylt {l : List (α × β)} (h : List.Sorted keylt l) :
    nodupKeys l := by
  simp only [nodupKeys, dictKeys]
  have hs : (l.map Prod.fst).Sorted (· < ·) := by
    rw [List.Sorted, List.pairwise_map]
    exact h
  exact hs.nodup

theorem dictGet_sortByKey {l : List (α × β)} (h : nodupKeys l) (k : α) :
    dictGet (sortByKey l) k = dictGet l k :=
  dictGet_eq_of_perm (sortByKey_perm l) (nodupKeys_sortByKey h) k

theorem sortByKey_eq_self {l : List (α × β)} (h : List.Sorted keyle l) : sortByKey l = l :=
  h.insertionSort_eq

theorem sortByKey_eq_self_of_keylt {l : List (α × β)} (h : List.Sorted keylt l) :
    sortByKey l = l :=
  sortByKey_eq_self (h.imp (fun hab => le_of_lt hab))

theorem assoc_ext {l1 l2 : List (α × β)}
    (h1 : List.Sorted keylt l1) (h2 : List.Sorted keylt l2)
    (h : ∀ k, dictGet l1 k = dictGet l2 k) : l1 = l2 := by
  induction l1 generalizing l2 with
  | nil =>
    cases l2 with
    | nil => rfl
    | cons q t2 =>
      have hh := h q.1
      simp [dictGet] at hh
  | cons p t1 ih =>
    cases l2 with
    | nil =>
      have hh := h p.1
      simp [dictGet] at hh
    | cons q t2 =>
      have ht1none : ∀ k ≤ p.1, dictGet t1 k = none := by
        intro k hk
        exact dictGet_eq_none_of_lt
          (fun r hr => lt_of_le_of_lt hk (List.rel_of_sorted_cons h1 r hr))
      have ht2none : ∀ k ≤ q.1, dictGet t2 k = none := by
        intro k hk
        exact dictGet_eq_none_of_lt
          (fun r hr => lt_of_le_of_lt hk (List.rel_of_sorted_cons h2 r hr))
      have hpq : p.1 = q.1 := by
        by_contra hne
        rcases lt_or_gt_of_ne hne with hlt | hgt
        · have hh := h p.1
          rw [dictGet, if_pos rfl, dictGet, if_neg (fun hh2 : q.1 = p.1 => hne hh2.symm),
            ht2none p.1 (le_of_lt hlt)] at hh
          exact Option.noConfusion hh
        · have hh := h q.1
          rw [dictGet, if_neg (fun hh2 : p.1 = q.1 => hne hh2),
            ht1none q.1 (le_of_lt hgt), dictGet, if_pos rfl] at hh
          exact Option.noConfusion hh
      have hv : p.2 = q.2 := by
        have hh := h p.1
        rw [dictGet, if_pos rfl, dictGet, if_pos hpq.symm] at hh
        exact Option.some.inj hh
      have ht : t1 = t2 := by
        apply ih h1.of_cons h2.of_cons
        intro k
        by_cases hk : k = p.1
        · rw [hk, ht1none p.1 le_rfl, ht2none p.1 (le_of_eq hpq)]
        · have hh := h k
          have hqk : ¬q.1 = k := fun hh2 => hk ((hpq.trans hh2).symm)
          rw [dictGet, if_neg (fun hh2 : p.1 = k => hk hh2.symm), dictGet, if_neg hqk] at hh
          exact hh
      calc p :: t1 = (p.1, p.2) :: t1 := rfl
        _ = (q.1, q.2) :: t2 := by rw [hpq, hv, ht]
        _ = q :: t2 := rfl

end SortLemmas

/-! ## Support lemmas about the operations -/

/-- Partitioning a list by a date bound is a permutation of the list. -/
theorem filter_le_lt_perm (ref : Nat) (l : List (Nat × ForecastRecord)) :
    (l.filter (fun p => ref ≤ p.2.forecast_date)
      ++ l.filter (fun p => p.2.forecast_date < ref)).Perm l := by
  induction l with
  | nil => simp
  | cons a t ih =>
    by_cases h : ref ≤ a.2.forecast_date
    · rw [List.filter_cons_of_pos (by simpa using h),
        List.filter_cons_of_neg (by simpa using Nat.not_lt.2 h), List.cons_append]
      exact ih.cons a
    · rw [List.filter_cons_of_neg (by simpa using h),
        List.filter_cons_of_pos (by simpa using Nat.not_le.1 h)]
      exact List.Perm.trans List.perm_middle (ih.cons a)

/-- The current half of the split is the `≥` filter (by definition). -/
theorem archiveOldRecords_fst (data : LocationData) (ref : Nat) :
    (archiveOldRecords data ref).1 =
      { data with forecasts := data.forecasts.filter (fun p => ref ≤ p.2.forecast_date) } :=
  rfl

/-- Unfolding of the archived half of the split. -/
theorem archiveOldRecords_snd (data : LocationData) (ref : Nat) :
    (archiveOldRecords data ref).2 =
      if (data.forecasts.filter (fun p => p.2.forecast_date < ref)).isEmpty then none
      else some { data with
        forecasts := data.forecasts.filter (fun p => p.2.forecast_date < ref) } :=
  rfl

/-- The archived half of the split carries exactly the `<` filter. -/
theorem archForecasts_archiveOldRecords (data : LocationData) (ref : Nat) :
    archForecasts (archiveOldRecords data ref).2 =
      data.forecasts.filter (fun p => p.2.forecast_date < ref) := by
  show archForecasts
      (if (data.forecasts.filter (fun p => p.2.forecast_date < ref)).isEmpty then none
        else some _) = _
  by_cases h : (data.forecasts.filter (fun p => p.2.forecast_date < ref)).isEmpty
  · rw [if_pos h]
    show ([] : List (Nat × ForecastRecord)) = _
    rw [List.isEmpty_iff] at h
    rw [h]
  · rw [if_neg h]
    rfl

/-- The per-day fold of `merge_forecast` never touches the identifying
fields. -/
theorem foldl_mergeForecastStep_fields (c : Nat) (ds : List ForecastDay) (st : LocationData) :
    (ds.foldl (mergeForecastStep c) st).product_id = st.product_id ∧
    (ds.foldl (mergeForecastStep c) st).city_name = st.city_name ∧
    (ds.foldl (mergeForecastStep c) st).state = st.state ∧
    (ds.foldl (mergeForecastStep c) st).timezone = st.timezone := by
  induction ds generalizing st with
  | nil => exact ⟨rfl, rfl, rfl, rfl⟩
  | cons d rest ih =>
    rw [List.foldl_cons]
    exact ih (mergeForecastStep c st d)

/-- Unfolding of the per-location loop of `collect_forecasts`. -/
theorem collectLoop_spec (locs : List (LocationConfig × LocEnv)) (c r : Nat)
    (acc : CollectionResult) :
    (collectLoop locs c r acc).total = acc.total ∧
    (collectLoop locs c r acc).successes + (collectLoop locs c r acc).failures
      = acc.successes + acc.failures + locs.length ∧
    (collectLoop locs c r acc).errors
      = acc.errors ++ locs.filterMap (fun le => collectSingleLocation le.1 le.2 c r) := by
  induction locs generalizing acc with
  | nil => simp [collectLoop]
  | cons le rest ih =>
    obtain ⟨location, env⟩ := le
    show (collectLoop (_ :: rest) c r acc).total = _ ∧ _
    rw [collectLoop]
    cases hres : collectSingleLocation location env c r with
    | none =>
      have := ih { acc with successes := acc.successes + 1 }
      refine ⟨this.1, ?_, ?_⟩
      · rw [this.2.1]
        simp only [List.length_cons]
        omega
      · rw [this.2.2]
        simp [List.filterMap_cons, hres]
    | some e =>
      have := ih { acc with failures := acc.failures + 1, errors := acc.errors ++ [e] }
      refine ⟨this.1, ?_, ?_⟩
      · rw [this.2.1]
        simp only [List.length_cons]
        omega
      · rw [this.2.2]
        simp [List.filterMap_cons, hres]

theorem dictGet_append {α β : Type} [DecidableEq α] (l1 l2 : List (α × β)) (k : α) :
    dictGet (l1 ++ l2) k = (dictGet l1 k).or (dictGet l2 k) := by
  induction l1 with
  | nil => simp [dictGet, Option.or]
  | cons p t ih =>
    by_cases h : p.1 = k
    · simp [dictGet, h, Option.or]
    · simp [dictGet, h, ih]

theorem mem_dictKeys_sortByKey {α β : Type} [LinearOrder α] (l : List (α × β)) (k : α) :
    k ∈ dictKeys (sortByKey l) ↔ k ∈ dictKeys l := by
  simp only [dictKeys]
  exact ((sortByKey_perm l).map Prod.fst).mem_iff

/-- Lookup after folding Python-dict assignments of a whole dict into
another: the assigned dict wins where it has the key. -/
theorem dictGet_foldl_dictInsert {α β : Type} [DecidableEq α]
    (l2 : List (α × β)) (l1 : List (α × β)) (k : α) (hn : nodupKeys l2) :
    dictGet (l2.foldl (fun ps p => dictInsert p.1 p.2 ps) l1) k
      = (dictGet l2 k).or (dictGet l1 k) := by
  induction l2 generalizing l1 with
  | nil => simp [dictGet, Option.or]
  | cons p t ih =>
    simp only [nodupKeys, dictKeys, List.map_cons, List.nodup_cons] at hn
    rw [List.foldl_cons, ih _ hn.2]
    by_cases h : p.1 = k
    · have ht : dictGet t k = none := by
        rw [dictGet_eq_none_iff]
        intro hm
        exact hn.1 (h ▸ hm)
      rw [ht, dictGet, if_pos h, dictGet_dictInsert, if_pos h.symm]
      cases dictGet l1 k <;> rfl
    · rw [dictGet, if_neg h, dictGet_dictInsert, if_neg (fun hh => h hh.symm)]

theorem nodupKeys_foldl_dictInsert {α β : Type} [DecidableEq α]
    (l2 : List (α × β)) {l1 : List (α × β)} (hn : nodupKeys l1) :
    nodupKeys (l2.foldl (fun ps p => dictInsert p.1 p.2 ps) l1) := by
  induction l2 generalizing l1 with
  | nil => exact hn
  | cons p t ih =>
    rw [List.foldl_cons]
    exact ih (nodupKeys_dictInsert p.1 p.2 hn)

theorem mem_dictKeys_mergeArchiveStep (acc : List (Nat × ForecastRecord))
    (kv : Nat × ForecastRecord) (k : Nat) :
    k ∈ dictKeys (mergeArchiveStep acc kv) ↔ k ∈ dictKeys acc ∨ k = kv.1 := by
  rw [mergeArchiveStep]
  cases h : dictGet acc kv.1 with
  | some r => exact mem_dictKeys_dictInsert kv.1 k _ acc
  | none => simp [dictKeys]

theorem nodupKeys_mergeArchiveStep {acc : List (Nat × ForecastRecord)}
    (kv : Nat × ForecastRecord) (hn : nodupKeys acc) :
    nodupKeys (mergeArchiveStep acc kv) := by
  rw [mergeArchiveStep]
  cases h : dictGet acc kv.1 with
  | some r => exact nodupKeys_dictInsert _ _ hn
  | none =>
    rw [dictGet_eq_none_iff] at h
    simp only [nodupKeys, dictKeys, List.map_append, List.map_cons, List.map_nil]
    exact List.Nodup.append hn (List.nodup_singleton kv.1)
      (by simpa [dictKeys] using h)

theorem mem_dictKeys_foldl_mergeArchiveStep (na : List (Nat × ForecastRecord))
    (acc : List (Nat × ForecastRecord)) (k : Nat) :
    k ∈ dictKeys (na.foldl mergeArchiveStep acc) ↔ k ∈ dictKeys acc ∨ k ∈ dictKeys na := by
  induction na generalizing acc with
  | nil => simp [dictKeys]
  | cons p t ih =>
    rw [List.foldl_cons, ih, mem_dictKeys_mergeArchiveStep]
    simp only [dictKeys, List.map_cons, List.mem_cons]
    tauto

theorem nodupKeys_foldl_mergeArchiveStep (na : List (Nat × ForecastRecord))
    {acc : List (Nat × ForecastRecord)} (hn : nodupKeys acc) :
    nodupKeys (na.foldl mergeArchiveStep acc) := by
  induction na generalizing acc with
  | nil => exact hn
  | cons p t ih =>
    rw [List.foldl_cons]
    exact ih (nodupKeys_mergeArchiveStep p hn)

/-- Lookup after the outer fold of `merge_archive_data`. -/
theorem dictGet_foldl_mergeArchiveStep (na : List (Nat × ForecastRecord))
    (acc : List (Nat × ForecastRecord)) (k : Nat) (hn : nodupKeys na) :
    dictGet (na.foldl mergeArchiveStep acc) k
      = match dictGet na k, dictGet acc k with
        | none, x => x
        | some rn, none => some rn
        | some rn, some ra => some (mergedArchiveRecord ra rn) := by
  induction na generalizing acc with
  | nil =>
    rw [List.foldl_nil]
    cases dictGet acc k <;> rfl
  | cons p t ih =>
    simp only [nodupKeys, dictKeys, List.map_cons, List.nodup_cons] at hn
    rw [List.foldl_cons, ih _ hn.2]
    have hstep : dictGet (mergeArchiveStep acc p) k
        = if k = p.1
          then match dictGet acc p.1 with
            | none => some p.2
            | some ra => some (mergedArchiveRecord ra p.2)
          else dictGet acc k := by
      rw [mergeArchiveStep]
      cases hacc : dictGet acc p.1 with
      | some ra =>
        rw [dictGet_dictInsert]
        by_cases h : k = p.1
        · rw [if_pos h, if_pos h]
          rfl
        · rw [if_neg h, if_neg h]
      | none =>
        rw [dictGet_append]
        by_cases h : k = p.1
        · rw [if_pos h, h, hacc, dictGet, if_pos rfl]
          rfl
        · rw [if_neg h]
          have hsing : dictGet [p] k = none := by
            rw [dictGet_eq_none_iff]
            simp only [dictKeys, List.map_cons, List.map_nil, List.mem_singleton]
            exact h
          rw [hsing]
          cases dictGet acc k <;> rfl
    by_cases h : k = p.1
    · subst h
      have ht : dictGet t p.1 = none := by
        rw [dictGet_eq_none_iff]
        simpa [dictKeys] using hn.1
      rw [ht, hstep, if_pos rfl, dictGet, if_pos rfl]
      cases dictGet acc p.1 <;> rfl
    · rw [hstep, if_neg h, dictGet, if_neg (fun hh => h hh.symm)]

/-! ## The per-record effect of the `merge_forecast` loop -/

theorem mergeForecastStep_forecasts (c : Nat) (st : LocationData) (d : ForecastDay) :
    (mergeForecastStep c st d).forecasts
      = dictInsert d.forecast_date
          (touchRecord c d ((dictGet st.forecasts d.forecast_date).getD
            { forecast_date := d.forecast_date, predictions := [] }))
          st.forecasts := by
  cases hg : dictGet st.forecasts d.forecast_date <;>
    simp [mergeForecastStep, touchRecord, hg, Option.getD]

theorem dictGet_mergeForecastStep (c : Nat) (st : LocationData) (d : ForecastDay) (k : Nat) :
    dictGet (mergeForecastStep c st d).forecasts k
      = if k = d.forecast_date
        then some (touchRecord c d ((dictGet st.forecasts d.forecast_date).getD
          { forecast_date := d.forecast_date, predictions := [] }))
        else dictGet st.forecasts k := by
  rw [mergeForecastStep_forecasts, dictGet_dictInsert]

theorem nodupKeys_mergeForecastStep (c : Nat) {st : LocationData} (d : ForecastDay)
    (h : nodupKeys st.forecasts) : nodupKeys (mergeForecastStep c st d).forecasts := by
  rw [mergeForecastStep_forecasts]
  exact nodupKeys_dictInsert _ _ h

theorem nodupKeys_foldl_mergeForecastStep (c : Nat) (ds : List ForecastDay)
    {st : LocationData} (h : nodupKeys st.forecasts) :
    nodupKeys ((ds.foldl (mergeForecastStep c) st).forecasts) := by
  induction ds generalizing st with
  | nil => exact h
  | cons d rest ih =>
    rw [List.foldl_cons]
    exact ih (nodupKeys_mergeForecastStep c d h)

/-- The lookup at one date key through the whole `merge_forecast`
loop: only the days whose target date equals the key act, in order. -/
theorem dictGet_foldl_mergeForecastStepChar (c : Nat) (ds : List ForecastDay)
    (st : LocationData) (k : Nat) :
    dictGet ((ds.foldl (mergeForecastStep c) st).forecasts) k
      = touchChain c (ds.filter (fun d => d.forecast_date = k)) (dictGet st.forecasts k) := by
  induction ds generalizing st with
  | nil => rfl
  | cons d rest ih =>
    rw [List.foldl_cons, ih]
    by_cases hd : d.forecast_date = k
    · rw [List.filter_cons_of_pos (by simpa using hd), touchChain]
      congr 1
      rw [dictGet_mergeForecastStep, if_pos hd.symm, hd]
    · rw [List.filter_cons_of_neg (by simpa using hd)]
      congr 1
      rw [dictGet_mergeForecastStep, if_neg (fun hh => hd hh.symm)]

theorem dictGet_sortByKey_dictInsert_self {α β : Type} [LinearOrder α]
    {l : List (α × β)} (h : nodupKeys l) (k : α) (u : β) :
    dictGet (sortByKey (dictInsert k u l)) k = some u := by
  rw [dictGet_sortByKey (nodupKeys_dictInsert k u h), dictGet_dictInsert, if_pos rfl]

/-- Re-assigning a key into an already re-assigned-and-sorted dict
collapses to a single assignment. -/
theorem sortByKey_dictInsert_collapse {α β : Type} [LinearOrder α]
    {l : List (α × β)} (h : nodupKeys l) (k : α) (u w : β) :
    sortByKey (dictInsert k w (sortByKey (dictInsert k u l)))
      = sortByKey (dictInsert k w l) := by
  have h1 : nodupKeys (sortByKey (dictInsert k u l)) :=
    nodupKeys_sortByKey (nodupKeys_dictInsert k u h)
  apply assoc_ext
      (sorted_keylt_sortByKey (nodupKeys_dictInsert k w h1))
      (sorted_keylt_sortByKey (nodupKeys_dictInsert k w h))
  intro x
  rw [dictGet_sortByKey (nodupKeys_dictInsert k w h1), dictGet_sortByKey
    (nodupKeys_dictInsert k w h), dictGet_dictInsert, dictGet_dictInsert]
  by_cases hx : x = k
  · rw [if_pos hx, if_pos hx]
  · rw [if_neg hx, if_neg hx, dictGet_sortByKey (nodupKeys_dictInsert k u h),
      dictGet_dictInsert, if_neg hx]

/-! ## Idempotence of the per-field override fold -/

theorem ovStep_foldl_of_all_absent {γ : Type} (p : γ → Bool) {ls : List γ}
    (h : ∀ b ∈ ls, p b = false) (x : γ) : ls.foldl (ovStep p) x = x := by
  induction ls generalizing x with
  | nil => rfl
  | cons a t ih =>
    rw [List.foldl_cons, ovStep, if_neg (by simp [h a (List.mem_cons_self a t)])]
    exact ih (fun b hb => h b (List.mem_cons_of_mem a hb)) x

theorem ovStep_foldl_init_irrel {γ : Type} (p : γ → Bool) {ls : List γ}
    (h : ∃ b ∈ ls, p b = true) (x y : γ) :
    ls.foldl (ovStep p) x = ls.foldl (ovStep p) y := by
  induction ls generalizing x y with
  | nil => simp at h
  | cons a t ih =>
    rw [List.foldl_cons, List.foldl_cons]
    by_cases ha : p a = true
    · rw [ovStep, if_pos ha, ovStep, if_pos ha]
    · rcases h with ⟨b, hb, hpb⟩
      rcases List.mem_cons.1 hb with rfl | hb
      · exact absurd hpb ha
      · exact ih ⟨b, hb, hpb⟩ _ _

theorem ovStep_refold {γ : Type} (p : γ → Bool) (ls : List γ) (x : γ) :
    ls.foldl (ovStep p) (ls.foldl (ovStep p) x) = ls.foldl (ovStep p) x := by
  by_cases h : ∃ b ∈ ls, p b = true
  · exact ovStep_foldl_init_irrel p h _ _
  · push_neg at h
    have hall : ∀ b ∈ ls, p b = false := fun b hb => by
      have := h b hb
      revert this
      cases p b <;> simp
    rw [ovStep_foldl_of_all_absent p hall, ovStep_foldl_of_all_absent p hall]

theorem ovStep_refold_ite {γ : Type} (p : γ → Bool) (ls : List γ) (x : γ) :
    ls.foldl (ovStep p) (if p x = true then x else ls.foldl (ovStep p) x)
      = ls.foldl (ovStep p) x := by
  by_cases hx : p x = true
  · rw [if_pos hx]
  · rw [if_neg hx]
    exact ovStep_refold p ls x

/-- `_merge_prediction_entry` folded over a run of new entries acts
independently per field. -/
theorem peFold_some (e : PredictionEntry) (ns : List PredictionEntry) :
    peFold (some e) ns = some
      { icon_code := (ns.map PredictionEntry.icon_code).foldl (ovStep Option.isSome) e.icon_code
        temp_min := (ns.map PredictionEntry.temp_min).foldl (ovStep Option.isSome) e.temp_min
        temp_max := (ns.map PredictionEntry.temp_max).foldl (ovStep Option.isSome) e.temp_max
        precipitation_prob := (ns.map PredictionEntry.precipitation_prob).foldl
          (ovStep optStrTruthy) e.precipitation_prob
        precis := (ns.map PredictionEntry.precis).foldl (ovStep optStrTruthy) e.precis
        forecast := (ns.map PredictionEntry.forecast).foldl (ovStep optStrTruthy) e.forecast } := by
  induction ns generalizing e with
  | nil => rfl
  | cons n t ih =>
    show peFold (some (mergePredictionEntry (some e) n)) t = _
    rw [ih]
    rfl

/-- Replaying the same run of entry merges over its own result is a
no-op. -/
theorem peFold_refold {ns : List PredictionEntry} {x : Option PredictionEntry}
    {v : PredictionEntry} (h : peFold x ns = some v) : peFold (some v) ns = some v := by
  cases x with
  | some e =>
    rw [peFold_some] at h
    have hv := (Option.some.inj h).symm
    subst hv
    rw [peFold_some]
    simp only [ovStep_refold]
  | none =>
    cases ns with
    | nil => exact Option.noConfusion h
    | cons n t =>
      have h' : peFold (some n) t = some v := h
      rw [peFold_some] at h'
      have hv := (Option.some.inj h').symm
      subst hv
      show peFold (some (mergePredictionEntry (some _) n)) t = _
      rw [peFold_some]
      simp only [mergePredictionEntry]
      simp only [ovStep_refold_ite]

/-- Normal form of a run of loop iterations all hitting one date key:
a single re-assignment of the folded prediction entry. -/
theorem touchChain_normal (c k : Nat) (ds : List ForecastDay) :
    ∀ r0 : ForecastRecord, ds ≠ [] → (∀ d ∈ ds, d.forecast_date = k) →
    nodupKeys r0.predictions →
    ∃ u, peFold (dictGet r0.predictions ((k : Int) - (c : Int))) (ds.map predictionOfDay)
        = some u ∧
      touchChain c ds (some r0) = some
        { r0 with predictions :=
            sortByKey (dictInsert ((k : Int) - (c : Int)) u r0.predictions) } := by
  induction ds with
  | nil => intro r0 hne _ _; exact absurd rfl hne
  | cons d rest ih =>
    intro r0 _ hdates hnd
    have hd : d.forecast_date = k := hdates d (List.mem_cons_self d rest)
    have htouch : touchRecord c d r0
        = { r0 with predictions :=
            sortByKey (dictInsert ((k : Int) - (c : Int))
              (mergePredictionEntry (dictGet r0.predictions ((k : Int) - (c : Int)))
                (predictionOfDay d))
              r0.predictions) } := by
      rw [touchRecord, hd]
    cases rest with
    | nil =>
      refine ⟨mergePredictionEntry (dictGet r0.predictions ((k : Int) - (c : Int)))
        (predictionOfDay d), rfl, ?_⟩
      show some (touchRecord c d r0) = _
      rw [htouch]
    | cons d2 rest2 =>
      have hstep : touchChain c (d :: d2 :: rest2) (some r0)
          = touchChain c (d2 :: rest2) (some (touchRecord c d r0)) := rfl
      have hnd1 : nodupKeys (touchRecord c d r0).predictions := by
        rw [htouch]
        exact nodupKeys_sortByKey (nodupKeys_dictInsert _ _ hnd)
      obtain ⟨u2, hu2, hchain⟩ := ih (touchRecord c d r0) (by simp)
        (fun d' hd' => hdates d' (List.mem_cons_of_mem d hd')) hnd1
      refine ⟨u2, ?_, ?_⟩
      · rw [List.map_cons]
        show peFold (some (mergePredictionEntry
          (dictGet r0.predictions ((k : Int) - (c : Int))) (predictionOfDay d)))
          ((d2 :: rest2).map predictionOfDay) = some u2
        rw [← hu2]
        congr 1
        rw [htouch]
        exact (dictGet_sortByKey_dictInsert_self hnd _ _).symm
      · rw [hstep, hchain, htouch]
        have hcollapse := sortByKey_dictInsert_collapse hnd ((k : Int) - (c : Int))
          (mergePredictionEntry (dictGet r0.predictions ((k : Int) - (c : Int)))
            (predictionOfDay d)) u2
        dsimp only
        rw [hcollapse]

/-- A run of loop iterations on one date key either does nothing (no
matching day) or produces a record with duplicate-free, strictly
ascending days-ahead keys. -/
theorem touchChain_cases (c k : Nat) (ds : List ForecastDay) (x : Option ForecastRecord)
    (hdates : ∀ d ∈ ds, d.forecast_date = k)
    (hx : ∀ r0, x = some r0 → nodupKeys r0.predictions) :
    (ds = [] ∧ touchChain c ds x = x) ∨
    ∃ r, touchChain c ds x = some r ∧ nodupKeys r.predictions ∧
      List.Sorted keylt r.predictions := by
  cases ds with
  | nil => exact Or.inl ⟨rfl, rfl⟩
  | cons d rest =>
    right
    have hd : d.forecast_date = k := hdates d (List.mem_cons_self d rest)
    have hx0 : nodupKeys (x.getD { forecast_date := k, predictions := [] }).predictions := by
      cases x with
      | none => exact List.nodup_nil
      | some r0 => exact hx r0 rfl
    have hseed : touchChain c (d :: rest) x
        = touchChain c (d :: rest) (some (x.getD { forecast_date := k, predictions := [] })) := by
      cases x with
      | none =>
        show touchChain c rest _ = touchChain c rest _
        rw [hd]
        rfl
      | some r0 => rfl
    obtain ⟨u, hu, hchain⟩ := touchChain_normal c k (d :: rest)
      (x.getD { forecast_date := k, predictions := [] }) (by simp) hdates hx0
    rw [hseed, hchain]
    exact ⟨_, rfl, nodupKeys_sortByKey (nodupKeys_dictInsert _ _ hx0),
      sorted_keylt_sortByKey (nodupKeys_dictInsert _ _ hx0)⟩

/-- Replaying a run of loop iterations on one date key over its own
result is a no-op. -/
theorem touchChain_idem (c k : Nat) (ds : List ForecastDay) (x : Option ForecastRecord)
    (hdates : ∀ d ∈ ds, d.forecast_date = k)
    (hx : ∀ r0, x = some r0 → nodupKeys r0.predictions) :
    touchChain c ds (touchChain c ds x) = touchChain c ds x := by
  cases ds with
  | nil => rfl
  | cons d rest =>
    have hd : d.forecast_date = k := hdates d (List.mem_cons_self d rest)
    have hx0 : nodupKeys (x.getD { forecast_date := k, predictions := [] }).predictions := by
      cases x with
      | none => exact List.nodup_nil
      | some r0 => exact hx r0 rfl
    have hseed : touchChain c (d :: rest) x
        = touchChain c (d :: rest) (some (x.getD { forecast_date := k, predictions := [] })) := by
      cases x with
      | none =>
        show touchChain c rest _ = touchChain c rest _
        rw [hd]
        rfl
      | some r0 => rfl
    obtain ⟨u, hu, hchain⟩ := touchChain_normal c k (d :: rest)
      (x.getD { forecast_date := k, predictions := [] }) (by simp) hdates hx0
    rw [hseed, hchain]
    obtain ⟨u2, hu2, hchain2⟩ := touchChain_normal c k (d :: rest)
      { (x.getD { forecast_date := k, predictions := [] }) with
        predictions := sortByKey (dictInsert ((k : Int) - (c : Int)) u
          (x.getD { forecast_date := k, predictions := [] }).predictions) }
      (by simp) hdates (nodupKeys_sortByKey (nodupKeys_dictInsert _ _ hx0))
    rw [hchain2]
    dsimp only at hu2 ⊢
    rw [dictGet_sortByKey_dictInsert_self hx0, peFold_refold hu] at hu2
    have hu2u : u = u2 := Option.some.inj hu2
    subst hu2u
    rw [sortByKey_dictInsert_collapse hx0]

/-- Componentwise equality of LocationData. -/
theorem LocationData_ext {x y : LocationData} (h1 : x.product_id = y.product_id)
    (h2 : x.city_name = y.city_name) (h3 : x.state = y.state)
    (h4 : x.timezone = y.timezone) (h5 : x.forecasts = y.forecasts) : x = y := by
  cases x
  cases y
  cases h1
  cases h2
  cases h3
  cases h4
  cases h5
  rfl

/-! ## Claims -/

/-- **C1**: the entry-level merge takes each of the new entry's fields
when present (non-null for `icon_code`/`temp_min`/`temp_max`, truthy
for the string fields) and otherwise keeps the existing entry's value;
in particular, an existing entry with all fields set merged with a new
entry carrying only `temp_max` equals the existing entry with
`temp_max` replaced. -/
theorem merge_prediction_entry_field_preservation (e n : PredictionEntry) :
    ((mergePredictionEntry (some e) n).icon_code
        = (if n.icon_code.isSome then n.icon_code else e.icon_code) ∧
      (mergePredictionEntry (some e) n).temp_min
        = (if n.temp_min.isSome then n.temp_min else e.temp_min) ∧
      (mergePredictionEntry (some e) n).temp_max
        = (if n.temp_max.isSome then n.temp_max else e.temp_max) ∧
      (mergePredictionEntry (some e) n).precipitation_prob
        = (if optStrTruthy n.precipitation_prob then n.precipitation_prob
           else e.precipitation_prob) ∧
      (mergePredictionEntry (some e) n).precis
        = (if optStrTruthy n.precis then n.precis else e.precis) ∧
      (mergePredictionEntry (some e) n).forecast
        = (if optStrTruthy n.forecast then n.forecast else e.forecast)) ∧
    (e.icon_code.isSome → e.temp_min.isSome → e.temp_max.isSome →
      optStrTruthy e.precipitation_prob = true → optStrTruthy e.precis = true →
      optStrTruthy e.forecast = true →
      n.icon_code = none → n.temp_min = none → n.temp_max.isSome →
      optStrTruthy n.precipitation_prob = false → optStrTruthy n.precis = false →
      optStrTruthy n.forecast = false →
      mergePredictionEntry (some e) n = { e with temp_max := n.temp_max }) := by
  constructor
  · exact ⟨rfl, rfl, rfl, rfl, rfl, rfl⟩
  · intro _ _ _ _ _ _ h7 h8 h9 h10 h11 h12
    simp [mergePredictionEntry, h7, h8, h9, h10, h11, h12]

/-- Witness for C1: a fully populated existing entry and a new entry
with only `temp_max` present. -/
theorem merge_prediction_entry_field_preservation_witness :
    mergePredictionEntry
        (some { icon_code := some 1, temp_min := some 2, temp_max := some 3,
                precipitation_prob := some "40%", precis := some "Sunny",
                forecast := some "Rain later" })
        { icon_code := none, temp_min := none, temp_max := some 28,
          precipitation_prob := none, precis := some "", forecast := none }
      = { icon_code := some 1, temp_min := some 2, temp_max := some 28,
          precipitation_prob := some "40%", precis := some "Sunny",
          forecast := some "Rain later" } :=
  (merge_prediction_entry_field_preservation _ _).2 (by decide) (by decide) (by decide)
    (by decide) (by decide) (by decide) (by decide) (by decide) (by decide) (by decide)
    (by decide) (by decide)

/-- **C2**: the split sends each record to the current half exactly
when its target date is ≥ the reference date and to the archived half
exactly when it is strictly earlier; the two halves' date-key lists
together are a permutation of the input's date keys, and no key is in
both halves. -/
theorem split_partitions_by_reference_date (data : LocationData) (ref : Nat)
    (hnd : nodupKeys data.forecasts) :
    (∀ p ∈ data.forecasts,
      (p ∈ (archiveOldRecords data ref).1.forecasts ↔ ref ≤ p.2.forecast_date) ∧
      (p ∈ archForecasts (archiveOldRecords data ref).2 ↔ p.2.forecast_date < ref)) ∧
    (dictKeys (archiveOldRecords data ref).1.forecasts
      ++ dictKeys (archForecasts (archiveOldRecords data ref).2)).Perm
        (dictKeys data.forecasts) ∧
    (∀ k, k ∈ dictKeys (archiveOldRecords data ref).1.forecasts →
      k ∉ dictKeys (archForecasts (archiveOldRecords data ref).2)) := by
  have hcur : (archiveOldRecords data ref).1.forecasts
      = data.forecasts.filter (fun p => ref ≤ p.2.forecast_date) := rfl
  have harch := archForecasts_archiveOldRecords data ref
  have hperm : (dictKeys (archiveOldRecords data ref).1.forecasts
      ++ dictKeys (archForecasts (archiveOldRecords data ref).2)).Perm
        (dictKeys data.forecasts) := by
    rw [hcur, harch]
    simp only [dictKeys, ← List.map_append]
    exact (filter_le_lt_perm ref data.forecasts).map Prod.fst
  refine ⟨?_, hperm, ?_⟩
  · intro p hp
    constructor
    · rw [hcur]
      simp [List.mem_filter, hp]
    · rw [harch]
      simp [List.mem_filter, hp]
  · intro k hk1 hk2
    have hnodup : (dictKeys (archiveOldRecords data ref).1.forecasts
        ++ dictKeys (archForecasts (archiveOldRecords data ref).2)).Nodup :=
      hperm.nodup_iff.2 hnd
    rcases List.nodup_append.1 hnodup with ⟨_, _, hdisj⟩
    exact hdisj hk1 hk2

/-- Witness for C2: a two-record history split at a date between the
two records. -/
theorem split_partitions_by_reference_date_witness :
    ((⟨10, { forecast_date := 10, predictions := [] }⟩ : Nat × ForecastRecord)
        ∈ (archiveOldRecords
            { product_id := "P", city_name := "C", state := "S", timezone := "Z",
              forecasts := [(9, { forecast_date := 9, predictions := [] }),
                (10, { forecast_date := 10, predictions := [] })] } 10).1.forecasts
      ↔ 10 ≤ 10) ∧
    (dictKeys (archiveOldRecords
        { product_id := "P", city_name := "C", state := "S", timezone := "Z",
          forecasts := [(9, { forecast_date := 9, predictions := [] }),
            (10, { forecast_date := 10, predictions := [] })] } 10).1.forecasts
      ++ dictKeys (archForecasts (archiveOldRecords
        { product_id := "P", city_name := "C", state := "S", timezone := "Z",
          forecasts := [(9, { forecast_date := 9, predictions := [] }),
            (10, { forecast_date := 10, predictions := [] })] } 10).2)).Perm [9, 10] :=
  ⟨((split_partitions_by_reference_date _ 10 (by decide)).1 _ (by simp)).1,
    (split_partitions_by_reference_date _ 10 (by decide)).2.1⟩

/-- Folding a parsed forecast whose dates are all fresh (absent from
the state) and strictly ascending appends one singleton-prediction
record per day. -/
theorem foldl_mergeForecastStep_fresh (c : Nat) (ds : List ForecastDay) (st : LocationData)
    (hfresh : ∀ d ∈ ds, ∀ k ∈ dictKeys st.forecasts, k < d.forecast_date)
    (hasc : ds.Pairwise (fun d1 d2 : ForecastDay => d1.forecast_date < d2.forecast_date)) :
    ds.foldl (mergeForecastStep c) st
      = { st with forecasts := st.forecasts ++ specFirstCollection c ds } := by
  induction ds generalizing st with
  | nil => simp [specFirstCollection]
  | cons d t ih =>
    rw [List.pairwise_cons] at hasc
    have hnot : d.forecast_date ∉ dictKeys st.forecasts := fun hm =>
      absurd (hfresh d (List.mem_cons_self d t) _ hm) (lt_irrefl _)
    have hstep : mergeForecastStep c st d
        = { st with forecasts := st.forecasts
            ++ [(d.forecast_date,
                { forecast_date := d.forecast_date
                  predictions := [((d.forecast_date : Int) - (c : Int),
                    predictionOfDay d)] })] } := by
      rw [mergeForecastStep]
      rw [dictGet_eq_none_iff.2 hnot]
      rw [dictInsert_of_not_mem _ hnot]
      rfl
    rw [List.foldl_cons, hstep]
    rw [ih _ ?_ hasc.2]
    · simp [specFirstCollection]
    · intro d' hd' k hk
      simp only [dictKeys, List.map_append, List.map_cons, List.map_nil,
        List.mem_append, List.mem_singleton] at hk
      rcases hk with hk | hk
      · exact hfresh d' (List.mem_cons_of_mem d hd') k (by simpa [dictKeys] using hk)
      · rw [hk]
        exact hasc.1 d' hd'

/-- The shape of the spec's first-collection records: date keys follow
the parsed days, and each record holds exactly the one days-ahead key
`target date − collection date`. -/
theorem specFirstCollection_keys (c : Nat) (ds : List ForecastDay) :
    dictKeys (specFirstCollection c ds) = ds.map ForecastDay.forecast_date ∧
    (specFirstCollection c ds).map (fun p => dictKeys p.2.predictions)
      = ds.map (fun d => [((d.forecast_date : Int) - (c : Int))]) := by
  induction ds with
  | nil => exact ⟨rfl, rfl⟩
  | cons d t ih =>
    refine ⟨?_, ?_⟩
    · simp only [specFirstCollection, dictKeys, List.map_cons] at ih ⊢
      rw [ih.1]
    · simp only [specFirstCollection, dictKeys, List.map_cons, List.map_nil] at ih ⊢
      rw [ih.2]

theorem mem_dictKeys_iff {α β : Type} [DecidableEq α] {l : List (α × β)} {k : α} :
    k ∈ dictKeys l ↔ dictGet l k ≠ none := by
  rw [Ne, dictGet_eq_none_iff, not_not]

/-- **C3**: with no existing archive the new archive is returned whole;
otherwise the result's date keys are the union of both archives' keys,
a date only in the new archive keeps its whole record, and a date in
both archives yields a record whose predictions hold every days-ahead
key of both, the new archive's prediction winning where both have the
key. -/
theorem archive_merge_cumulative :
    (∀ na : LocationData, mergeArchiveData none na = na) ∧
    (∀ ea na : LocationData, nodupKeys ea.forecasts → nodupKeys na.forecasts →
      (∀ k, k ∈ dictKeys (mergeArchiveData (some ea) na).forecasts ↔
        k ∈ dictKeys ea.forecasts ∨ k ∈ dictKeys na.forecasts) ∧
      (∀ k, k ∉ dictKeys ea.forecasts →
        dictGet (mergeArchiveData (some ea) na).forecasts k = dictGet na.forecasts k) ∧
      (∀ k rE rN, dictGet ea.forecasts k = some rE → dictGet na.forecasts k = some rN →
        nodupKeys rE.predictions → nodupKeys rN.predictions →
        ∃ r, dictGet (mergeArchiveData (some ea) na).forecasts k = some r ∧
          r.forecast_date = rE.forecast_date ∧
          (∀ da, da ∈ dictKeys r.predictions ↔
            da ∈ dictKeys rE.predictions ∨ da ∈ dictKeys rN.predictions) ∧
          (∀ da, dictGet r.predictions da
            = (dictGet rN.predictions da).or (dictGet rE.predictions da)))) := by
  constructor
  · intro na
    rfl
  · intro ea na hea hna
    have hres : (mergeArchiveData (some ea) na).forecasts
        = sortByKey (na.forecasts.foldl mergeArchiveStep ea.forecasts) := rfl
    have hfnd : nodupKeys (na.forecasts.foldl mergeArchiveStep ea.forecasts) :=
      nodupKeys_foldl_mergeArchiveStep _ hea
    have hget : ∀ k, dictGet (mergeArchiveData (some ea) na).forecasts k
        = dictGet (na.forecasts.foldl mergeArchiveStep ea.forecasts) k := by
      intro k
      rw [hres]
      exact dictGet_sortByKey hfnd k
    refine ⟨?_, ?_, ?_⟩
    · intro k
      rw [hres, mem_dictKeys_sortByKey, mem_dictKeys_foldl_mergeArchiveStep]
    · intro k hk
      rw [hget k, dictGet_foldl_mergeArchiveStep _ _ _ hna,
        dictGet_eq_none_iff.2 hk]
      cases dictGet na.forecasts k <;> rfl
    · intro k rE rN hE hN hrE hrN
      have hor : ∀ da, dictGet (mergedArchiveRecord rE rN).predictions da
          = (dictGet rN.predictions da).or (dictGet rE.predictions da) := by
        intro da
        show dictGet (sortByKey
          (rN.predictions.foldl (fun ps p => dictInsert p.1 p.2 ps) rE.predictions)) da = _
        rw [dictGet_sortByKey (nodupKeys_foldl_dictInsert _ hrE) da,
          dictGet_foldl_dictInsert _ _ _ hrN]
      refine ⟨mergedArchiveRecord rE rN, ?_, rfl, ?_, hor⟩
      · rw [hget k, dictGet_foldl_mergeArchiveStep _ _ _ hna, hN, hE]
      · intro da
        rw [mem_dictKeys_iff, hor da, mem_dictKeys_iff, mem_dictKeys_iff]
        cases dictGet rN.predictions da <;> cases dictGet rE.predictions da <;>
          simp [Option.or]

/-- Witness for C3: the spec's cumulative-archive scenario — merging a
new date into a distinct-date archive keeps both dates, and merging a
second days-ahead into an already-archived date keeps both
predictions. -/
theorem archive_merge_cumulative_witness :
    (100 ∈ dictKeys (mergeArchiveData
        (some { product_id := "P", city_name := "C", state := "S", timezone := "Z",
                forecasts := [(93, { forecast_date := 93, predictions :=
                  [(0, { icon_code := some 2, temp_min := none, temp_max := none,
                         precipitation_prob := none, precis := none,
                         forecast := none })] })] })
        { product_id := "P", city_name := "C", state := "S", timezone := "Z",
          forecasts := [(100, { forecast_date := 100, predictions :=
            [(0, { icon_code := some 1, temp_min := none, temp_max := none,
                   precipitation_prob := none, precis := none,
                   forecast := none })] })] }).forecasts
      ↔ 100 ∈ dictKeys (LocationData.forecasts
          { product_id := "P", city_name := "C", state := "S", timezone := "Z",
            forecasts := [(93, { forecast_date := 93, predictions :=
              [(0, { icon_code := some 2, temp_min := none, temp_max := none,
                     precipitation_prob := none, precis := none,
                     forecast := none })] })] })
        ∨ 100 ∈ dictKeys (LocationData.forecasts
          { product_id := "P", city_name := "C", state := "S", timezone := "Z",
            forecasts := [(100, { forecast_date := 100, predictions :=
              [(0, { icon_code := some 1, temp_min := none, temp_max := none,
                     precipitation_prob := none, precis := none,
                     forecast := none })] })] })) ∧
    dictGet (mergeArchiveData
        (some { product_id := "P", city_name := "C", state := "S", timezone := "Z",
                forecasts :=
                  [(93, { forecast_date := 93, predictions :=
                    [(0, { icon_code := some 2, temp_min := none, temp_max := none,
                           precipitation_prob := none, precis := none,
                           forecast := none })] }),
                   (100, { forecast_date := 100, predictions :=
                    [(0, { icon_code := some 1, temp_min := none, temp_max := none,
                           precipitation_prob := none, precis := none,
                           forecast := none })] })] })
        { product_id := "P", city_name := "C", state := "S", timezone := "Z",
          forecasts := [(93, { forecast_date := 93, predictions :=
            [(1, { icon_code := some 3, temp_min := none, temp_max := none,
                   precipitation_prob := none, precis := none,
                   forecast := none })] })] }).forecasts 93
      = some { forecast_date := 93, predictions :=
          [(0, { icon_code := some 2, temp_min := none, temp_max := none,
                 precipitation_prob := none, precis := none, forecast := none }),
           (1, { icon_code := some 3, temp_min := none, temp_max := none,
                 precipitation_prob := none, precis := none, forecast := none })] } := by
  have h2 := (archive_merge_cumulative.2
    { product_id := "P", city_name := "C", state := "S", timezone := "Z",
      forecasts := [(93, { forecast_date := 93, predictions :=
        [(0, { icon_code := some 2, temp_min := none, temp_max := none,
               precipitation_prob := none, precis := none, forecast := none })] })] }
    { product_id := "P", city_name := "C", state := "S", timezone := "Z",
      forecasts := [(100, { forecast_date := 100, predictions :=
        [(0, { icon_code := some 1, temp_min := none, temp_max := none,
               precipitation_prob := none, precis := none, forecast := none })] })] }
    (by decide) (by decide)).1 100
  have h3 := (archive_merge_cumulative.2
    { product_id := "P", city_name := "C", state := "S", timezone := "Z",
      forecasts :=
        [(93, { forecast_date := 93, predictions :=
          [(0, { icon_code := some 2, temp_min := none, temp_max := none,
                 precipitation_prob := none, precis := none, forecast := none })] }),
         (100, { forecast_date := 100, predictions :=
          [(0, { icon_code := some 1, temp_min := none, temp_max := none,
                 precipitation_prob := none, precis := none, forecast := none })] })] }
    { product_id := "P", city_name := "C", state := "S", timezone := "Z",
      forecasts := [(93, { forecast_date := 93, predictions :=
        [(1, { icon_code := some 3, temp_min := none, temp_max := none,
               precipitation_prob := none, precis := none, forecast := none })] })] }
    (by decide) (by decide)).2.2 93
    { forecast_date := 93, predictions :=
      [(0, { icon_code := some 2, temp_min := none, temp_max := none,
             precipitation_prob := none, precis := none, forecast := none })] }
    { forecast_date := 93, predictions :=
      [(1, { icon_code := some 3, temp_min := none, temp_max := none,
             precipitation_prob := none, precis := none, forecast := none })] }
    rfl rfl (by decide) (by decide)
  refine ⟨h2, ?_⟩
  obtain ⟨r, hr, -, -, -⟩ := h3
  rw [hr, ← hr]
  decide

/-- Counterexample to C5 as stated: the split re-sorts nothing, so a
LocationData whose date keys arrive out of order passes through
`archive_old_records` with its keys still out of order. -/
theorem sort_invariant_counterexample :
    ¬ sortedLD (archiveOldRecords
        { product_id := "P", city_name := "C", state := "S", timezone := "Z",
          forecasts := [(2, { forecast_date := 2, predictions := [] }),
            (1, { forecast_date := 1, predictions := [] })] } 0).1 := by
  decide

/-- **C5** (amended): the sort invariant is preserved — when every
LocationData input has strictly ascending outer date keys and strictly
ascending days-ahead keys in every record, so does every output of the
forecast merge, the split and the archive merge. -/
theorem sort_invariant_preserved :
    (∀ (existing : Option LocationData) (pf : ParsedForecast) (c : Nat) (s : String),
      (∀ e, existing = some e → sortedLD e) → sortedLD (mergeForecast existing pf c s)) ∧
    (∀ (data : LocationData) (ref : Nat), sortedLD data →
      sortedLD (archiveOldRecords data ref).1 ∧
      (∀ a, (archiveOldRecords data ref).2 = some a → sortedLD a)) ∧
    (∀ na, sortedLD na → sortedLD (mergeArchiveData none na)) ∧
    (∀ ea na, sortedLD ea → sortedLD na → sortedLD (mergeArchiveData (some ea) na)) := by
  refine ⟨?_, ?_, ?_, ?_⟩
  · intro existing pf c s hex
    have hbase : ∃ b : LocationData, sortedLD b
        ∧ mergeForecast existing pf c s = mergeForecast (some b) pf c s := by
      cases existing with
      | none =>
        refine ⟨{ product_id := pf.product_id, city_name := pf.city_name, state := s,
                  timezone := pf.timezone, forecasts := [] },
          ⟨List.sorted_nil, ?_⟩, rfl⟩
        intro p hp
        simp at hp
      | some e => exact ⟨e, hex e rfl, rfl⟩
    obtain ⟨b, hbs, heq⟩ := hbase
    rw [heq]
    have hbnd : nodupKeys b.forecasts := nodupKeys_of_sorted_keylt hbs.1
    have hnF : nodupKeys (pf.forecasts.foldl (mergeForecastStep c) b).forecasts :=
      nodupKeys_foldl_mergeForecastStep c pf.forecasts hbnd
    have hS1f : (mergeForecast (some b) pf c s).forecasts
        = sortByKey (pf.forecasts.foldl (mergeForecastStep c) b).forecasts := rfl
    constructor
    · rw [hS1f]
      exact sorted_keylt_sortByKey hnF
    · intro p hp
      have hnS1 : nodupKeys (mergeForecast (some b) pf c s).forecasts := by
        rw [hS1f]
        exact nodupKeys_sortByKey hnF
      have hget : dictGet (mergeForecast (some b) pf c s).forecasts p.1 = some p.2 :=
        dictGet_eq_some_of_mem hnS1 (by rw [Prod.mk.eta]; exact hp)
      rw [hS1f, dictGet_sortByKey hnF, dictGet_foldl_mergeForecastStepChar] at hget
      have hdates : ∀ d ∈ pf.forecasts.filter (fun d => d.forecast_date = p.1),
          d.forecast_date = p.1 := by
        intro d hdm
        exact of_decide_eq_true (List.mem_filter.1 hdm).2
      have hx0 : ∀ r0, dictGet b.forecasts p.1 = some r0 → nodupKeys r0.predictions := by
        intro r0 h0
        exact nodupKeys_of_sorted_keylt (hbs.2 (p.1, r0) (mem_of_dictGet_eq_some h0))
      rcases touchChain_cases c p.1 _ _ hdates hx0 with ⟨_, hval⟩ | ⟨r, hr, _, hrsorted⟩
      · rw [hval] at hget
        exact hbs.2 (p.1, p.2) (mem_of_dictGet_eq_some hget)
      · rw [hr] at hget
        rw [← Option.some.inj hget]
        exact hrsorted
  · intro data ref hd
    refine ⟨⟨hd.1.filter _, ?_⟩, ?_⟩
    · intro p hp
      exact hd.2 p (List.mem_filter.1 hp).1
    · intro a ha
      rw [archiveOldRecords_snd] at ha
      by_cases h : (data.forecasts.filter (fun p => p.2.forecast_date < ref)).isEmpty
      · rw [if_pos h] at ha
        exact Option.noConfusion ha
      · rw [if_neg h] at ha
        rw [← Option.some.inj ha]
        refine ⟨hd.1.filter _, ?_⟩
        intro p hp
        exact hd.2 p (List.mem_filter.1 hp).1
  · intro na h
    exact h
  · intro ea na hea hna
    have heand : nodupKeys ea.forecasts := nodupKeys_of_sorted_keylt hea.1
    have hfnd : nodupKeys (na.forecasts.foldl mergeArchiveStep ea.forecasts) :=
      nodupKeys_foldl_mergeArchiveStep _ heand
    have hres : (mergeArchiveData (some ea) na).forecasts
        = sortByKey (na.forecasts.foldl mergeArchiveStep ea.forecasts) := rfl
    constructor
    · rw [hres]
      exact sorted_keylt_sortByKey hfnd
    · intro p hp
      have hnres : nodupKeys (mergeArchiveData (some ea) na).forecasts := by
        rw [hres]
        exact nodupKeys_sortByKey hfnd
      have hget : dictGet (mergeArchiveData (some ea) na).forecasts p.1 = some p.2 :=
        dictGet_eq_some_of_mem hnres (by rw [Prod.mk.eta]; exact hp)
      rw [hres, dictGet_sortByKey hfnd,
        dictGet_foldl_mergeArchiveStep _ _ _ (nodupKeys_of_sorted_keylt hna.1)] at hget
      cases hN : dictGet na.forecasts p.1 with
      | none =>
        rw [hN] at hget
        have hget' : dictGet ea.forecasts p.1 = some p.2 := hget
        exact hea.2 (p.1, p.2) (mem_of_dictGet_eq_some hget')
      | some rn =>
        cases hE : dictGet ea.forecasts p.1 with
        | none =>
          rw [hN, hE] at hget
          have hget' : some rn = some p.2 := hget
          rw [← Option.some.inj hget']
          exact hna.2 (p.1, rn) (mem_of_dictGet_eq_some hN)
        | some re =>
          rw [hN, hE] at hget
          have hget' : some (mergedArchiveRecord re rn) = some p.2 := hget
          rw [← Option.some.inj hget']
          have hrend : nodupKeys re.predictions :=
            nodupKeys_of_sorted_keylt (hea.2 (p.1, re) (mem_of_dictGet_eq_some hE))
          exact sorted_keylt_sortByKey (nodupKeys_foldl_dictInsert _ hrend)

/-- Witness for the amended C5: the invariant holds after a merge, a
split and an archive merge over concrete sorted inputs. -/
theorem sort_invariant_preserved_witness :
    sortedLD (mergeForecast
      (some { product_id := "P", city_name := "C", state := "S", timezone := "Z",
              forecasts := [(11, { forecast_date := 11, predictions :=
                [(1, { icon_code := some 4, temp_min := none, temp_max := none,
                       precipitation_prob := none, precis := none, forecast := none })] })] })
      { product_id := "P", city_name := "C", timezone := "Z",
        forecasts :=
          [{ forecast_date := 12, icon_code := some 2, temp_min := some 9,
             temp_max := some 19, precipitation_prob := some "30%",
             precis := some "Showers", forecast := none },
           { forecast_date := 11, icon_code := none, temp_min := none, temp_max := some 21,
             precipitation_prob := none, precis := none, forecast := none }] }
      10 "NSW") ∧
    sortedLD (archiveOldRecords
      { product_id := "P", city_name := "C", state := "S", timezone := "Z",
        forecasts := [(11, { forecast_date := 11, predictions :=
          [(1, { icon_code := some 4, temp_min := none, temp_max := none,
                 precipitation_prob := none, precis := none, forecast := none })] })] }
      13).1 ∧
    sortedLD (mergeArchiveData
      (some { product_id := "P", city_name := "C", state := "S", timezone := "Z",
              forecasts := [(11, { forecast_date := 11, predictions :=
                [(1, { icon_code := some 4, temp_min := none, temp_max := none,
                       precipitation_prob := none, precis := none, forecast := none })] })] })
      { product_id := "P", city_name := "C", state := "S", timezone := "Z",
        forecasts := [(9, { forecast_date := 9, predictions :=
          [(0, { icon_code := some 9, temp_min := none, temp_max := none,
                 precipitation_prob := none, precis := none, forecast := none })] })] }) :=
  ⟨sort_invariant_preserved.1 _ _ 10 "NSW"
      (fun e h => Option.some.inj h ▸ (by decide)),
    (sort_invariant_preserved.2.1 _ 13 (by decide)).1,
    sort_invariant_preserved.2.2.2 _ _ (by decide) (by decide)⟩

/-- **C7**: fetch, parse and current-file write failures each fail the
location with a descriptive message; an archive-file write failure
leaves the location successful; and the per-location loop processes
every location, counting successes and failures and collecting the
error messages. -/
theorem collector_error_handling :
    (∀ (loc : LocationConfig) (env : LocEnv) (c r : Nat), env.fetched = none →
      collectSingleLocation loc env c r
        = some ("Failed to fetch XML for " ++ loc.city_name ++ " (" ++ loc.product_id ++ ")")) ∧
    (∀ (loc : LocationConfig) (env : LocEnv) (c r : Nat) (x : String),
      env.fetched = some x → env.parsed = none →
      collectSingleLocation loc env c r
        = some ("Failed to parse XML for " ++ loc.city_name ++ " (" ++ loc.product_id ++ ")")) ∧
    (∀ (loc : LocationConfig) (env : LocEnv) (c r : Nat) (x : String) (pf : ParsedForecast)
      (e : String), env.fetched = some x → env.parsed = some pf →
      env.writeCurrent = Except.error e →
      collectSingleLocation loc env c r
        = some ("Failed to write file for " ++ loc.city_name ++ " (" ++ loc.product_id
            ++ "): " ++ e)) ∧
    (∀ (loc : LocationConfig) (env : LocEnv) (c r : Nat) (x : String) (pf : ParsedForecast)
      (e : String), env.fetched = some x → env.parsed = some pf →
      env.writeCurrent = Except.ok () → env.writeArchive = Except.error e →
      collectSingleLocation loc env c r = none) ∧
    (∀ (locs : List (LocationConfig × LocEnv)) (c r : Nat),
      (collectForecasts locs c r).total = locs.length ∧
      (collectForecasts locs c r).successes + (collectForecasts locs c r).failures
        = locs.length ∧
      (collectForecasts locs c r).errors
        = locs.filterMap (fun le => collectSingleLocation le.1 le.2 c r)) := by
  refine ⟨?_, ?_, ?_, ?_, ?_⟩
  · intro loc env c r h
    rw [collectSingleLocation, h]
  · intro loc env c r x h1 h2
    rw [collectSingleLocation, h1, h2]
  · intro loc env c r x pf e h1 h2 h3
    rw [collectSingleLocation, h1, h2, h3]
  · intro loc env c r x pf e h1 h2 h3 _
    rw [collectSingleLocation, h1, h2, h3]
  · intro locs c r
    have h := collectLoop_spec locs c r { total := locs.length }
    refine ⟨h.1, ?_, ?_⟩
    · have := h.2.1
      simpa using this
    · simpa using h.2.2

/-- Witness for C7: one fetched-and-parsed location whose archive write
fails still succeeds. -/
theorem collector_error_handling_witness :
    collectSingleLocation { product_id := "IDN1", city_name := "Sydney", state := "NSW" }
      { fetched := some "<xml/>",
        parsed := some { product_id := "IDN1", city_name := "Sydney", timezone := "AEDT",
                         forecasts := [] },
        existingData := none,
        writeCurrent := Except.ok (),
        writeArchive := Except.error "disk full" } 5 5 = none :=
  collector_error_handling.2.2.2.1 _ _ 5 5 "<xml/>"
    { product_id := "IDN1", city_name := "Sydney", timezone := "AEDT", forecasts := [] }
    "disk full" rfl rfl rfl rfl

/-- **C8**: exit code 2 when there are no locations or every location
failed, 1 when at least one but not all failed, 0 when all
succeeded. -/
theorem main_exit_code_cases (r : CollectionResult) :
    (r.total = 0 → mainExitCode r = 2) ∧
    (r.failures = r.total → mainExitCode r = 2) ∧
    (0 < r.failures → r.failures < r.total → mainExitCode r = 1) ∧
    (0 < r.total → r.failures = 0 → mainExitCode r = 0) := by
  refine ⟨?_, ?_, ?_, ?_⟩
  · intro h1
    simp only [mainExitCode, if_pos h1]
  · intro h1
    by_cases h0 : r.total = 0
    · simp only [mainExitCode, if_pos h0]
    · simp only [mainExitCode, if_neg h0, if_pos h1]
  · intro h1 h2
    have h0 : ¬r.total = 0 := by omega
    have hne : ¬r.failures = r.total := by omega
    simp only [mainExitCode, if_neg h0, if_neg hne, if_pos h1]
  · intro h1 h2
    have h0 : ¬r.total = 0 := by omega
    have hne : ¬r.failures = r.total := by omega
    have hpos : ¬0 < r.failures := by omega
    simp only [mainExitCode, if_neg h0, if_neg hne, if_neg hpos]

/-- Witness for C8: all four exit-code cases at concrete results. -/
theorem main_exit_code_cases_witness :
    mainExitCode { total := 0, successes := 0, failures := 0, errors := [] } = 2 ∧
    mainExitCode { total := 3, successes := 0, failures := 3, errors := ["a", "b", "c"] } = 2 ∧
    mainExitCode { total := 3, successes := 2, failures := 1, errors := ["a"] } = 1 ∧
    mainExitCode { total := 3, successes := 3, failures := 0, errors := [] } = 0 :=
  ⟨(main_exit_code_cases _).1 rfl,
    (main_exit_code_cases _).2.1 rfl,
    (main_exit_code_cases _).2.2.1 (by decide) (by decide),
    (main_exit_code_cases _).2.2.2 (by decide) rfl⟩

/-- **C9**: merging a parsed forecast with no per-day entries preserves
a present existing history — identifying fields untouched, forecast
mapping unchanged as a mapping (a permutation with identical lookups;
when the stored mapping is already key-sorted, literally unchanged) —
and with absent history produces an empty forecast mapping. -/
theorem merge_empty_parsed (pf : ParsedForecast) (c : Nat) (s : String)
    (hpf : pf.forecasts = []) :
    (∀ e : LocationData,
      (mergeForecast (some e) pf c s).product_id = e.product_id ∧
      (mergeForecast (some e) pf c s).city_name = e.city_name ∧
      (mergeForecast (some e) pf c s).state = e.state ∧
      (mergeForecast (some e) pf c s).timezone = e.timezone ∧
      (mergeForecast (some e) pf c s).forecasts.Perm e.forecasts ∧
      (nodupKeys e.forecasts →
        ∀ k, dictGet (mergeForecast (some e) pf c s).forecasts k = dictGet e.forecasts k) ∧
      (List.Sorted keyle e.forecasts → mergeForecast (some e) pf c s = e)) ∧
    mergeForecast none pf c s =
      { product_id := pf.product_id, city_name := pf.city_name, state := s,
        timezone := pf.timezone, forecasts := [] } := by
  constructor
  · intro e
    have hm : mergeForecast (some e) pf c s = { e with forecasts := sortByKey e.forecasts } := by
      rw [mergeForecast, hpf]
      rfl
    rw [hm]
    refine ⟨rfl, rfl, rfl, rfl, sortByKey_perm e.forecasts, ?_, ?_⟩
    · intro hnd k
      exact dictGet_sortByKey hnd k
    · intro hs
      show ({ e with forecasts := sortByKey e.forecasts } : LocationData) = e
      rw [sortByKey_eq_self hs]
  · rw [mergeForecast, hpf]
    rfl

/-- Witness for C9: empty parse over a one-record sorted history and
over no history. -/
theorem merge_empty_parsed_witness :
    mergeForecast
        (some { product_id := "P", city_name := "C", state := "S", timezone := "Z",
                forecasts := [(7, { forecast_date := 7, predictions := [] })] })
        { product_id := "Q", city_name := "D", timezone := "Y", forecasts := [] } 5 "NSW"
      = { product_id := "P", city_name := "C", state := "S", timezone := "Z",
          forecasts := [(7, { forecast_date := 7, predictions := [] })] } ∧
    mergeForecast none
        { product_id := "Q", city_name := "D", timezone := "Y", forecasts := [] } 5 "NSW"
      = { product_id := "Q", city_name := "D", state := "NSW", timezone := "Y",
          forecasts := [] } :=
  ⟨((merge_empty_parsed _ 5 "NSW" rfl).1 _).2.2.2.2.2.2 (List.sorted_singleton _),
    (merge_empty_parsed _ 5 "NSW" rfl).2⟩

/-- **C4**: merging the same parsed forecast twice, with the same
collection date and state, into the same starting history yields the
same LocationData as merging it once. -/
theorem merge_forecast_idempotent (existing : Option LocationData) (pf : ParsedForecast)
    (c : Nat) (s : String) (hnd : ∀ e, existing = some e → nodupLD e) :
    mergeForecast (some (mergeForecast existing pf c s)) pf c s
      = mergeForecast existing pf c s := by
  have hbase : ∃ b : LocationData, nodupLD b
      ∧ mergeForecast existing pf c s = mergeForecast (some b) pf c s := by
    cases existing with
    | none =>
      refine ⟨{ product_id := pf.product_id, city_name := pf.city_name, state := s,
                timezone := pf.timezone, forecasts := [] }, ⟨List.nodup_nil, ?_⟩, rfl⟩
      intro p hp
      simp at hp
    | some e => exact ⟨e, hnd e rfl, rfl⟩
  obtain ⟨b, hb, heq⟩ := hbase
  rw [heq]
  have hnF : nodupKeys (pf.forecasts.foldl (mergeForecastStep c) b).forecasts :=
    nodupKeys_foldl_mergeForecastStep c pf.forecasts hb.1
  have hS1f : (mergeForecast (some b) pf c s).forecasts
      = sortByKey (pf.forecasts.foldl (mergeForecastStep c) b).forecasts := rfl
  have hnS1 : nodupKeys (mergeForecast (some b) pf c s).forecasts := by
    rw [hS1f]
    exact nodupKeys_sortByKey hnF
  have hnF2 : nodupKeys (pf.forecasts.foldl (mergeForecastStep c)
      (mergeForecast (some b) pf c s)).forecasts :=
    nodupKeys_foldl_mergeForecastStep c pf.forecasts hnS1
  have hS1get : ∀ k, dictGet (mergeForecast (some b) pf c s).forecasts k
      = touchChain c (pf.forecasts.filter (fun d => d.forecast_date = k))
          (dictGet b.forecasts k) := by
    intro k
    rw [hS1f, dictGet_sortByKey hnF k, dictGet_foldl_mergeForecastStepChar]
  have hmain : mergeForecast (some (mergeForecast (some b) pf c s)) pf c s
      = { (pf.forecasts.foldl (mergeForecastStep c) (mergeForecast (some b) pf c s)) with
          forecasts := sortByKey (pf.forecasts.foldl (mergeForecastStep c)
            (mergeForecast (some b) pf c s)).forecasts } := rfl
  rw [hmain]
  have hfields := foldl_mergeForecastStep_fields c pf.forecasts (mergeForecast (some b) pf c s)
  apply LocationData_ext
  · exact hfields.1
  · exact hfields.2.1
  · exact hfields.2.2.1
  · exact hfields.2.2.2
  · show sortByKey (pf.forecasts.foldl (mergeForecastStep c)
      (mergeForecast (some b) pf c s)).forecasts = (mergeForecast (some b) pf c s).forecasts
    refine assoc_ext (sorted_keylt_sortByKey hnF2) ?_ ?_
    · rw [hS1f]
      exact sorted_keylt_sortByKey hnF
    · intro k
      rw [dictGet_sortByKey hnF2 k, dictGet_foldl_mergeForecastStepChar, hS1get k]
      have hdates : ∀ d ∈ pf.forecasts.filter (fun d => d.forecast_date = k),
          d.forecast_date = k := by
        intro d hdm
        exact of_decide_eq_true (List.mem_filter.1 hdm).2
      have hx0 : ∀ r0, dictGet b.forecasts k = some r0 → nodupKeys r0.predictions := by
        intro r0 h0
        exact hb.2 (k, r0) (mem_of_dictGet_eq_some h0)
      exact touchChain_idem c k _ _ hdates hx0

/-- Witness for C4: re-merging a parse with a repeated target date and
a fresh date over a one-record history changes nothing. -/
theorem merge_forecast_idempotent_witness :
    mergeForecast
        (some (mergeForecast
          (some { product_id := "P", city_name := "C", state := "S", timezone := "Z",
                  forecasts := [(12, { forecast_date := 12, predictions :=
                    [(2, { icon_code := some 5, temp_min := some 8, temp_max := none,
                           precipitation_prob := some "20%", precis := none,
                           forecast := some "Cloudy" })] })] })
          { product_id := "P", city_name := "C", timezone := "Z",
            forecasts :=
              [{ forecast_date := 12, icon_code := none, temp_min := none,
                 temp_max := some 30, precipitation_prob := some "",
                 precis := some "Hot", forecast := none },
               { forecast_date := 12, icon_code := some 7, temp_min := none,
                 temp_max := none, precipitation_prob := none, precis := none,
                 forecast := none },
               { forecast_date := 13, icon_code := some 3, temp_min := some 11,
                 temp_max := some 22, precipitation_prob := some "80%",
                 precis := some "Rain", forecast := some "Heavy rain" }] }
          10 "NSW"))
        { product_id := "P", city_name := "C", timezone := "Z",
          forecasts :=
            [{ forecast_date := 12, icon_code := none, temp_min := none,
               temp_max := some 30, precipitation_prob := some "",
               precis := some "Hot", forecast := none },
             { forecast_date := 12, icon_code := some 7, temp_min := none,
               temp_max := none, precipitation_prob := none, precis := none,
               forecast := none },
             { forecast_date := 13, icon_code := some 3, temp_min := some 11,
               temp_max := some 22, precipitation_prob := some "80%",
               precis := some "Rain", forecast := some "Heavy rain" }] }
        10 "NSW"
      = mergeForecast
          (some { product_id := "P", city_name := "C", state := "S", timezone := "Z",
                  forecasts := [(12, { forecast_date := 12, predictions :=
                    [(2, { icon_code := some 5, temp_min := some 8, temp_max := none,
                           precipitation_prob := some "20%", precis := none,
                           forecast := some "Cloudy" })] })] })
          { product_id := "P", city_name := "C", timezone := "Z",
            forecasts :=
              [{ forecast_date := 12, icon_code := none, temp_min := none,
                 temp_max := some 30, precipitation_prob := some "",
                 precis := some "Hot", forecast := none },
               { forecast_date := 12, icon_code := some 7, temp_min := none,
                 temp_max := none, precipitation_prob := none, precis := none,
                 forecast := none },
               { forecast_date := 13, icon_code := some 3, temp_min := some 11,
                 temp_max := some 22, precipitation_prob := some "80%",
                 precis := some "Rain", forecast := some "Heavy rain" }] }
          10 "NSW" :=
  merge_forecast_idempotent
    (some { product_id := "P", city_name := "C", state := "S", timezone := "Z",
            forecasts := [(12, { forecast_date := 12, predictions :=
              [(2, { icon_code := some 5, temp_min := some 8, temp_max := none,
                     precipitation_prob := some "20%", precis := none,
                     forecast := some "Cloudy" })] })] })
    { product_id := "P", city_name := "C", timezone := "Z",
      forecasts :=
        [{ forecast_date := 12, icon_code := none, temp_min := none,
           temp_max := some 30, precipitation_prob := some "",
           precis := some "Hot", forecast := none },
         { forecast_date := 12, icon_code := some 7, temp_min := none,
           temp_max := none, precipitation_prob := none, precis := none,
           forecast := none },
         { forecast_date := 13, icon_code := some 3, temp_min := some 11,
           temp_max := some 22, precipitation_prob := some "80%",
           precis := some "Rain", forecast := some "Heavy rain" }] }
    10 "NSW"
    (fun e h => Option.some.inj h ▸ (by decide))

/-- **C6**: merging a parsed forecast whose entries carry the distinct
target dates `D, D+1, …, D+n−1` into absent history yields a
LocationData identified by the parsed forecast and the given state,
holding exactly `n` records, each with exactly one prediction keyed by
the integer day difference between its target date and `D`
(`0 … n−1` respectively). -/
theorem merge_first_collection (pf : ParsedForecast) (D : Nat) (s : String)
    (h : pf.forecasts.map ForecastDay.forecast_date
      = (List.range pf.forecasts.length).map (fun i => D + i)) :
    mergeForecast none pf D s =
      { product_id := pf.product_id, city_name := pf.city_name, state := s,
        timezone := pf.timezone, forecasts := specFirstCollection D pf.forecasts } ∧
    (specFirstCollection D pf.forecasts).length = pf.forecasts.length ∧
    dictKeys (specFirstCollection D pf.forecasts)
      = (List.range pf.forecasts.length).map (fun i => D + i) ∧
    (specFirstCollection D pf.forecasts).map (fun p => dictKeys p.2.predictions)
      = (List.range pf.forecasts.length).map (fun i : Nat => [(i : Int)]) := by
  have hkeys := (specFirstCollection_keys D pf.forecasts).1
  have hpreds := (specFirstCollection_keys D pf.forecasts).2
  have hasc : pf.forecasts.Pairwise
      (fun d1 d2 : ForecastDay => d1.forecast_date < d2.forecast_date) := by
    have hmap : (pf.forecasts.map ForecastDay.forecast_date).Pairwise (· < ·) := by
      rw [h]
      exact List.Pairwise.map _ (fun a b hab => by omega) (List.sorted_lt_range _)
    rwa [List.pairwise_map] at hmap
  refine ⟨?_, ?_, ?_, ?_⟩
  · have hfold := foldl_mergeForecastStep_fresh D pf.forecasts
      { product_id := pf.product_id, city_name := pf.city_name, state := s,
        timezone := pf.timezone, forecasts := [] }
      (by
        intro d hd k hk
        simp [dictKeys] at hk) hasc
    have h1 : mergeForecast none pf D s
        = { (pf.forecasts.foldl (mergeForecastStep D)
              { product_id := pf.product_id, city_name := pf.city_name, state := s,
                timezone := pf.timezone, forecasts := [] }) with
            forecasts := sortByKey (pf.forecasts.foldl (mergeForecastStep D)
              { product_id := pf.product_id, city_name := pf.city_name, state := s,
                timezone := pf.timezone, forecasts := [] }).forecasts } := rfl
    have hsorted : List.Sorted keyle (specFirstCollection D pf.forecasts) := by
      have hks : (dictKeys (specFirstCollection D pf.forecasts)).Pairwise (· ≤ ·) := by
        rw [hkeys, h]
        exact List.Pairwise.map _ (fun a b hab => by omega) (List.sorted_lt_range _)
      simp only [dictKeys, List.pairwise_map] at hks
      exact hks
    rw [h1, hfold]
    simp only [List.nil_append]
    rw [sortByKey_eq_self hsorted]
  · simp [specFirstCollection]
  · rw [hkeys, h]
  · rw [hpreds]
    have hcomp : pf.forecasts.map (fun d => [((d.forecast_date : Int) - (D : Int))])
        = (pf.forecasts.map ForecastDay.forecast_date).map
            (fun x : Nat => [((x : Int) - (D : Int))]) := by
      rw [List.map_map]
      rfl
    rw [hcomp, h, List.map_map]
    have hfun : ((fun x : Nat => [((x : Int) - (D : Int))]) ∘ (fun i : Nat => D + i))
        = fun i : Nat => [(i : Int)] := by
      funext i
      simp only [Function.comp]
      congr 1
      push_cast
      ring
    rw [hfun]

/-- Witness for C6: the spec's six-day first-collection scenario at
collection date 50. -/
theorem merge_first_collection_witness :
    mergeForecast none
        { product_id := "IDN10064", city_name := "Sydney", timezone := "AEDT",
          forecasts :=
            [{ forecast_date := 50, icon_code := some 1, temp_min := some 10,
               temp_max := some 20, precipitation_prob := some "10%",
               precis := some "Sunny", forecast := some "Sunny day" },
             { forecast_date := 51, icon_code := none, temp_min := none, temp_max := none,
               precipitation_prob := none, precis := none, forecast := none },
             { forecast_date := 52, icon_code := none, temp_min := none, temp_max := none,
               precipitation_prob := none, precis := none, forecast := none },
             { forecast_date := 53, icon_code := none, temp_min := none, temp_max := none,
               precipitation_prob := none, precis := none, forecast := none },
             { forecast_date := 54, icon_code := none, temp_min := none, temp_max := none,
               precipitation_prob := none, precis := none, forecast := none },
             { forecast_date := 55, icon_code := none, temp_min := none, temp_max := none,
               precipitation_prob := none, precis := none, forecast := none }] }
        50 "NSW"
      = { product_id := "IDN10064", city_name := "Sydney", state := "NSW", timezone := "AEDT",
          forecasts := specFirstCollection 50
            [{ forecast_date := 50, icon_code := some 1, temp_min := some 10,
               temp_max := some 20, precipitation_prob := some "10%",
               precis := some "Sunny", forecast := some "Sunny day" },
             { forecast_date := 51, icon_code := none, temp_min := none, temp_max := none,
               precipitation_prob := none, precis := none, forecast := none },
             { forecast_date := 52, icon_code := none, temp_min := none, temp_max := none,
               precipitation_prob := none, precis := none, forecast := none },
             { forecast_date := 53, icon_code := none, temp_min := none, temp_max := none,
               precipitation_prob := none, precis := none, forecast := none },
             { forecast_date := 54, icon_code := none, temp_min := none, temp_max := none,
               precipitation_prob := none, precis := none, forecast := none },
             { forecast_date := 55, icon_code := none, temp_min := none, temp_max := none,
               precipitation_prob := none, precis := none, forecast := none }] } ∧
    dictKeys (specFirstCollection 50
        [{ forecast_date := 50, icon_code := some 1, temp_min := some 10,
           temp_max := some 20, precipitation_prob := some "10%",
           precis := some "Sunny", forecast := some "Sunny day" },
         { forecast_date := 51, icon_code := none, temp_min := none, temp_max := none,
           precipitation_prob := none, precis := none, forecast := none },
         { forecast_date := 52, icon_code := none, temp_min := none, temp_max := none,
           precipitation_prob := none, precis := none, forecast := none },
         { forecast_date := 53, icon_code := none, temp_min := none, temp_max := none,
           precipitation_prob := none, precis := none, forecast := none },
         { forecast_date := 54, icon_code := none, temp_min := none, temp_max := none,
           precipitation_prob := none, precis := none, forecast := none },
         { forecast_date := 55, icon_code := none, temp_min := none, temp_max := none,
           precipitation_prob := none, precis := none, forecast := none }])
      = [50, 51, 52, 53, 54, 55] :=
  have hp := merge_first_collection
    { product_id := "IDN10064", city_name := "Sydney", timezone := "AEDT",
      forecasts :=
        [{ forecast_date := 50, icon_code := some 1, temp_min := some 10,
           temp_max := some 20, precipitation_prob := some "10%",
           precis := some "Sunny", forecast := some "Sunny day" },
         { forecast_date := 51, icon_code := none, temp_min := none, temp_max := none,
           precipitation_prob := none, precis := none, forecast := none },
         { forecast_date := 52, icon_code := none, temp_min := none, temp_max := none,
           precipitation_prob := none, precis := none, forecast := none },
         { forecast_date := 53, icon_code := none, temp_min := none, temp_max := none,
           precipitation_prob := none, precis := none, forecast := none },
         { forecast_date := 54, icon_code := none, temp_min := none, temp_max := none,
           precipitation_prob := none, precis := none, forecast := none },
         { forecast_date := 55, icon_code := none, temp_min := none, temp_max := none,
           precipitation_prob := none, precis := none, forecast := none }] }
    50 "NSW" (by decide)
  ⟨hp.1, hp.2.2.1⟩

/-- **C10**: the forecast merge with present history keeps the existing
identifying fields, and both halves of the split keep the input's
identifying fields. -/
theorem core_ops_preserve_identifying_fields :
    (∀ (e : LocationData) (pf : ParsedForecast) (c : Nat) (s : String),
      (mergeForecast (some e) pf c s).product_id = e.product_id ∧
      (mergeForecast (some e) pf c s).city_name = e.city_name ∧
      (mergeForecast (some e) pf c s).state = e.state ∧
      (mergeForecast (some e) pf c s).timezone = e.timezone) ∧
    (∀ (data : LocationData) (ref : Nat),
      ((archiveOldRecords data ref).1.product_id = data.product_id ∧
        (archiveOldRecords data ref).1.city_name = data.city_name ∧
        (archiveOldRecords data ref).1.state = data.state ∧
        (archiveOldRecords data ref).1.timezone = data.timezone) ∧
      (∀ a, (archiveOldRecords data ref).2 = some a →
        a.product_id = data.product_id ∧ a.city_name = data.city_name ∧
        a.state = data.state ∧ a.timezone = data.timezone)) := by
  constructor
  · intro e pf c s
    have h := foldl_mergeForecastStep_fields c pf.forecasts e
    exact ⟨h.1, h.2.1, h.2.2.1, h.2.2.2⟩
  · intro data ref
    refine ⟨⟨rfl, rfl, rfl, rfl⟩, ?_⟩
    intro a ha
    rw [archiveOldRecords_snd] at ha
    by_cases h : (data.forecasts.filter (fun p => p.2.forecast_date < ref)).isEmpty
    · rw [if_pos h] at ha
      exact Option.noConfusion ha
    · rw [if_neg h] at ha
      rw [← Option.some.inj ha]
      exact ⟨rfl, rfl, rfl, rfl⟩

/-- Witness for C10: a split that does archive a record keeps the
identifying fields on the archived half. -/
theorem core_ops_preserve_identifying_fields_witness :
    (mergeForecast
        (some { product_id := "P", city_name := "C", state := "S", timezone := "Z",
                forecasts := [] })
        { product_id := "Q", city_name := "D", timezone := "Y", forecasts := [] }
        5 "QLD").state = "S" ∧
    ({ product_id := "P", city_name := "C", state := "S", timezone := "Z",
       forecasts := [(3, { forecast_date := 3, predictions := [] })] }
      : LocationData).product_id = "P" :=
  ⟨(core_ops_preserve_identifying_fields.1
      { product_id := "P", city_name := "C", state := "S", timezone := "Z", forecasts := [] }
      { product_id := "Q", city_name := "D", timezone := "Y", forecasts := [] }
      5 "QLD").2.2.1,
    ((core_ops_preserve_identifying_fields.2
      { product_id := "P", city_name := "C", state := "S", timezone := "Z",
        forecasts := [(3, { forecast_date := 3, predictions := [] })] } 5).2
      { product_id := "P", city_name := "C", state := "S", timezone := "Z",
        forecasts := [(3, { forecast_date := 3, predictions := [] })] } rfl).1⟩

end WeatherPostcast
